import Mathlib

/-!
Verification of the concurrent ad-performance download scheduler of
`facebook_downloader/downloader.py`.

The development shallowly embeds:

* Python's `heapq` module (`_siftdown`, `_siftup`, `heappush`, `heappop`,
  `heapify`), which the scheduler uses for both of its priority queues,
  as list-transforming functions over an arbitrary strict comparison
  `lt : α → α → Bool` (Python's `__lt__`);
* the data model (`JobQueueItem`, `RetryQueueItem`, the shared
  `ThreadArgs` state) and the operations `_process_job`,
  `_retry_thread_func`'s loop body, `_job_thread_func`'s loop body and
  `_process_single_day_jobs_concurrently`'s controller logic;
* the `rate_limiting` decorator.

Machine integers are modelled as `Nat`/`Int` (Python integers are
unbounded, so no wrap-around is introduced), instants
(`datetime.datetime`) and durations (seconds) as `Nat`, and error
messages as abstract `String`s.  Side effects (the actual Facebook API
download and the sqlite upsert) are modelled by an `AttemptOutcome`
oracle describing how each execution attempt ends, which is the level
at which the scheduler itself observes them.
-/

namespace FacebookDownloader

/-! ## Python's `heapq`, shallowly embedded over `List`

Python lists become Lean `List`s; `heap[i]` becomes `List.getD i d`
(indices are always in range where the source reads them, `d` is an
arbitrary default), `heap[i] = x` becomes `List.set i x`. -/

namespace Heapq

variable {α : Type}

/-- `heapq._siftdown(heap, startpos, pos)`: `newitem` (read from
`heap[pos]` by the Python code before the loop) bubbles up towards the
root while it is strictly smaller than its parent
(`parentpos = (pos - 1) >> 1`). -/
def siftdown (lt : α → α → Bool) (d : α) (newitem : α) (startpos : Nat)
    (heap : List α) (pos : Nat) : List α :=
  if _h : startpos < pos then
    if lt newitem (heap.getD ((pos - 1) / 2) d) then
      siftdown lt d newitem startpos
        (heap.set pos (heap.getD ((pos - 1) / 2) d)) ((pos - 1) / 2)
    else
      heap.set pos newitem
  else
    heap.set pos newitem
termination_by pos
decreasing_by
  have := Nat.div_le_self (pos - 1) 2
  omega

/-- The child-selection step of `heapq._siftup`: `childpos = 2*pos+1`,
replaced by `rightpos = childpos+1` when `rightpos < endpos and not
heap[childpos] < heap[rightpos]`. -/
def siftupChild (lt : α → α → Bool) (d : α) (endpos : Nat)
    (heap : List α) (pos : Nat) : Nat :=
  if 2 * pos + 2 < endpos ∧ lt (heap.getD (2 * pos + 1) d) (heap.getD (2 * pos + 2) d) = false
  then 2 * pos + 2 else 2 * pos + 1

theorem siftupChild_gt (lt : α → α → Bool) (d : α) (endpos : Nat)
    (heap : List α) (pos : Nat) : pos < siftupChild lt d endpos heap pos := by
  unfold siftupChild; split <;> omega

theorem siftupChild_lt (lt : α → α → Bool) (d : α) (endpos : Nat)
    (heap : List α) (pos : Nat) (h : 2 * pos + 1 < endpos) :
    siftupChild lt d endpos heap pos < endpos := by
  unfold siftupChild; split <;> omega

/-- `heapq._siftup(heap, pos)` (with `endpos = len(heap)` and `newitem
= heap[pos]` read at entry): the hole at `pos` is moved down along the
smaller-child path until it is a leaf, then `_siftdown` bubbles
`newitem` back up from the leaf. -/
def siftup (lt : α → α → Bool) (d : α) (endpos startpos : Nat) (newitem : α)
    (heap : List α) (pos : Nat) : List α :=
  if _h : 2 * pos + 1 < endpos then
    siftup lt d endpos startpos newitem
      (heap.set pos (heap.getD (siftupChild lt d endpos heap pos) d))
      (siftupChild lt d endpos heap pos)
  else
    siftdown lt d newitem startpos (heap.set pos newitem) pos
termination_by endpos - pos
decreasing_by
  have h1 := siftupChild_gt lt d endpos heap pos
  have h2 := siftupChild_lt lt d endpos heap pos (by omega)
  omega

/-- `heapq.heappush(heap, item)`. -/
def heappush (lt : α → α → Bool) (d : α) (heap : List α) (item : α) : List α :=
  siftdown lt d item 0 (heap ++ [item]) heap.length

/-- `heapq.heappop(heap)`: returns `none` on the empty heap (Python
raises `IndexError`; the scheduler only pops non-empty heaps), else the
popped item together with the remaining heap. -/
def heappop (lt : α → α → Bool) (d : α) (heap : List α) : Option (α × List α) :=
  match heap.getLast? with
  | none => none
  | some lastelt =>
    let rest := heap.dropLast
    if rest.length = 0 then some (lastelt, rest)
    else some (rest.getD 0 d, siftup lt d rest.length 0 lastelt (rest.set 0 lastelt) 0)

/-- The loop of `heapq.heapify`: `for i in reversed(range(n//2)): _siftup(x, i)`. -/
def heapifyLoop (lt : α → α → Bool) (d : α) : List α → Nat → List α
  | heap, 0 => heap
  | heap, i + 1 =>
    heapifyLoop lt d (siftup lt d heap.length i (heap.getD i d) heap i) i

/-- `heapq.heapify(x)`. -/
def heapify (lt : α → α → Bool) (d : α) (heap : List α) : List α :=
  heapifyLoop lt d heap (heap.length / 2)

/-! ### List helper lemmas for the heap proofs -/

theorem getD_set_self (l : List α) (i : Nat) (a d : α) (h : i < l.length) :
    (l.set i a).getD i d = a := by
  rw [List.getD_eq_getElem _ _ (by simpa using h)]
  exact List.getElem_set_self _

theorem getD_set_ne (l : List α) (i j : Nat) (a d : α) (h : i ≠ j) :
    (l.set i a).getD j d = l.getD j d := by
  by_cases hj : j < l.length
  · rw [List.getD_eq_getElem _ _ (by simpa using hj), List.getD_eq_getElem _ _ hj]
    exact List.getElem_set_ne h _
  · rw [List.getD_eq_default _ _ (by simp; omega), List.getD_eq_default _ _ (by omega)]

theorem set_append_last (l : List α) (a b : α) :
    (l ++ [a]).set l.length b = l ++ [b] := by
  induction l with
  | nil => rfl
  | cons x xs ih => simp [List.set, ih]

theorem getD_append_lt (l t : List α) (i : Nat) (d : α) (h : i < l.length) :
    (l ++ t).getD i d = l.getD i d := by
  rw [List.getD_eq_getElem _ _ (by simp; omega), List.getD_eq_getElem _ _ h]
  exact (List.getElem_append_left h)

theorem getD_dropLast (l : List α) (i : Nat) (d : α) (h : i < l.dropLast.length) :
    l.dropLast.getD i d = l.getD i d := by
  rw [List.getD_eq_getElem _ _ h, List.getD_eq_getElem _ _ (by simp at h; omega)]
  exact List.getElem_dropLast l i h

/-- Transposition: writing `l[j]` into slot `i` and then overwriting
slot `j` permutes like writing into slot `i` directly. -/
theorem set_set_perm_of_getD [DecidableEq α] (l : List α) (i j : Nat) (b d : α)
    (hi : i < l.length) (hj : j < l.length) (hij : i ≠ j) :
    List.Perm ((l.set i (l.getD j d)).set j b) (l.set i b) := by
  rw [List.getD_eq_getElem l d hj]
  apply List.perm_iff_count.mpr
  intro x
  rw [List.count_set _ _ _ _ (by simpa using hj),
      List.count_set _ _ _ _ hi, List.count_set _ _ _ _ hi,
      List.getElem_set_ne hij]
  have hcnt : l[i] = x → 0 < List.count x l :=
    fun h => List.count_pos_iff.mpr (h ▸ List.getElem_mem hi)
  by_cases h1 : l[i] = x
  · have := hcnt h1
    by_cases h2 : l[j] = x <;> by_cases h3 : b = x <;> simp [h1, h2, h3] <;> omega
  · by_cases h2 : l[j] = x <;> by_cases h3 : b = x <;> simp [h1, h2, h3]

/-! ### The heap operations permute their input -/

theorem siftdown_perm [DecidableEq α] (lt : α → α → Bool) (d : α) (newitem : α)
    (startpos : Nat) (heap : List α) (pos : Nat) (hpos : pos < heap.length) :
    List.Perm (siftdown lt d newitem startpos heap pos) (heap.set pos newitem) := by
  induction heap, pos using siftdown.induct lt d newitem startpos with
  | case1 heap pos h hlt ih =>
    rw [siftdown, dif_pos h, if_pos hlt]
    have hpp : (pos - 1) / 2 < pos := by
      have := Nat.div_le_self (pos - 1) 2; omega
    refine (ih (by simp; omega)).trans ?_
    exact set_set_perm_of_getD heap pos ((pos - 1) / 2) newitem d hpos (by omega) (by omega)
  | case2 heap pos h hlt =>
    rw [siftdown, dif_pos h, if_neg hlt]
  | case3 heap pos h =>
    rw [siftdown, dif_neg h]


theorem siftup_perm [DecidableEq α] (lt : α → α → Bool) (d : α)
    (endpos startpos : Nat) (newitem : α) (heap : List α) (pos : Nat)
    (hend : endpos ≤ heap.length) (hpos : pos < heap.length) :
    List.Perm (siftup lt d endpos startpos newitem heap pos) (heap.set pos newitem) := by
  induction heap, pos using siftup.induct lt d endpos startpos newitem with
  | case1 heap pos h ih =>
    rw [siftup, dif_pos h]
    have hc1 := siftupChild_gt lt d endpos heap pos
    have hc2 := siftupChild_lt lt d endpos heap pos h
    refine (ih (by simpa using hend) (by simp; omega)).trans ?_
    exact set_set_perm_of_getD heap pos _ newitem d hpos (by omega) (by omega)
  | case2 heap pos h =>
    rw [siftup, dif_neg h]
    refine (siftdown_perm lt d newitem startpos _ pos (by simpa using hpos)).trans ?_
    rw [List.set_set]

theorem heappush_perm [DecidableEq α] (lt : α → α → Bool) (d : α)
    (heap : List α) (item : α) :
    List.Perm (heappush lt d heap item) (item :: heap) := by
  unfold heappush
  refine (siftdown_perm lt d item 0 _ heap.length (by simp)).trans ?_
  rw [set_append_last]
  exact List.perm_append_singleton item heap

theorem heappop_none_iff (lt : α → α → Bool) (d : α) (heap : List α) :
    heappop lt d heap = none ↔ heap = [] := by
  unfold heappop
  cases h : heap.getLast? with
  | none => simpa using (List.getLast?_eq_none_iff.mp h)
  | some a =>
    simp only []
    constructor
    · intro hc; split at hc <;> simp_all
    · intro hc; subst hc; simp at h

/-- Unfolding equation for `heappop` on a heap presented as `ys ++ [lastelt]`. -/
theorem heappop_concat (lt : α → α → Bool) (d : α) (ys : List α) (lastelt : α) :
    heappop lt d (ys ++ [lastelt]) =
      if ys.length = 0 then some (lastelt, ys)
      else some (ys.getD 0 d, siftup lt d ys.length 0 lastelt (ys.set 0 lastelt) 0) := by
  unfold heappop
  rw [List.getLast?_concat, List.dropLast_concat]

theorem heappop_perm [DecidableEq α] (lt : α → α → Bool) (d : α)
    (heap : List α) (x : α) (rest : List α)
    (h : heappop lt d heap = some (x, rest)) :
    List.Perm (x :: rest) heap := by
  rcases List.eq_nil_or_concat heap with rfl | ⟨ys, lastelt, rfl⟩
  · exact absurd h (by rw [show heappop lt d ([] : List α) = none from rfl]; simp)
  · rw [List.concat_eq_append] at h ⊢
    rw [heappop_concat] at h
    by_cases hemp : ys.length = 0
    · rw [if_pos hemp] at h
      simp only [Option.some.injEq, Prod.mk.injEq] at h
      obtain ⟨rfl, rfl⟩ := h
      obtain rfl : ys = [] := List.length_eq_zero.mp hemp
      exact List.Perm.refl _
    · rw [if_neg hemp] at h
      simp only [Option.some.injEq, Prod.mk.injEq] at h
      obtain ⟨hx, hrest⟩ := h
      have hlen : 0 < ys.length := by omega
      have hperm1 : List.Perm rest (ys.set 0 lastelt) := by
        rw [← hrest]
        refine (siftup_perm lt d ys.length 0 lastelt (ys.set 0 lastelt) 0
          (by simp) (by simp; omega)).trans ?_
        rw [List.set_set]
      have hswap : List.Perm (ys.getD 0 d :: ys.set 0 lastelt) (lastelt :: ys) := by
        cases ys with
        | nil => simp at hlen
        | cons c t => exact List.Perm.swap lastelt c t
      rw [← hx]
      exact ((hperm1.cons _).trans hswap).trans (List.perm_append_singleton _ _).symm

theorem heappop_length [DecidableEq α] (lt : α → α → Bool) (d : α)
    (heap : List α) (x : α) (rest : List α)
    (h : heappop lt d heap = some (x, rest)) :
    rest.length + 1 = heap.length := by
  have := (heappop_perm lt d heap x rest h).length_eq
  simpa using this

theorem heapifyLoop_perm [DecidableEq α] (lt : α → α → Bool) (d : α) :
    ∀ (k : Nat) (heap : List α), 2 * k ≤ heap.length →
    List.Perm (heapifyLoop lt d heap k) heap := by
  intro k
  induction k with
  | zero => intro heap _; exact List.Perm.refl _
  | succ i ih =>
    intro heap hk
    rw [heapifyLoop]
    have hi : i < heap.length := by omega
    have hs := siftup_perm lt d heap.length i (heap.getD i d) heap i (le_refl _) hi
    refine (ih _ (by rw [hs.length_eq]; simp; omega)).trans ?_
    refine hs.trans ?_
    -- setting slot i to its own value is the identity
    rw [List.getD_eq_getElem _ _ hi]
    apply List.perm_iff_count.mpr
    intro a
    rw [List.count_set _ _ _ _ hi]
    have hcnt : heap[i] = a → 0 < List.count a heap :=
      fun h => List.count_pos_iff.mpr (h ▸ List.getElem_mem hi)
    by_cases h1 : heap[i] = a
    · have := hcnt h1; simp [h1]; omega
    · simp [h1]

theorem heapify_perm [DecidableEq α] (lt : α → α → Bool) (d : α) (heap : List α) :
    List.Perm (heapify lt d heap) heap :=
  heapifyLoop_perm lt d _ heap (by omega)

/-! ### The heap invariant and its preservation by `heappush`/`heappop` -/

/-- The binary min-heap property w.r.t. `lt`: no child is strictly
smaller than its parent. This is the invariant `heapq` maintains. -/
def IsHeap (lt : α → α → Bool) (d : α) (heap : List α) : Prop :=
  ∀ i, i < heap.length → 0 < i →
    lt (heap.getD i d) (heap.getD ((i - 1) / 2) d) = false

instance (lt : α → α → Bool) (d : α) (heap : List α) : Decidable (IsHeap lt d heap) := by
  unfold IsHeap; infer_instance

/-- The laws both comparators of `downloader.py` satisfy (they are
strict weak orders induced by a totally ordered key). -/
structure LawfulLt (lt : α → α → Bool) : Prop where
  irrefl : ∀ a, lt a a = false
  asymm : ∀ a b, lt a b = true → lt b a = false
  le_trans : ∀ a b c, lt b a = false → lt c b = false → lt c a = false
  le_lt : ∀ a b c, lt c b = false → lt a b = true → lt c a = false

/-- Hole invariant (A): every parent/child edge not touching the hole
`pos` satisfies the heap property. -/
def HoleA (lt : α → α → Bool) (d : α) (heap : List α) (pos : Nat) : Prop :=
  ∀ i, i < heap.length → 0 < i → i ≠ pos → (i - 1) / 2 ≠ pos →
    lt (heap.getD i d) (heap.getD ((i - 1) / 2) d) = false

/-- Hole invariant (B): no child of the hole is smaller than the
hole's parent. -/
def HoleB (lt : α → α → Bool) (d : α) (heap : List α) (pos : Nat) : Prop :=
  0 < pos → ∀ c, c < heap.length → (c = 2 * pos + 1 ∨ c = 2 * pos + 2) →
    lt (heap.getD c d) (heap.getD ((pos - 1) / 2) d) = false

/-- Hole invariant (C): no child of the hole is smaller than the item
being sifted down into the hole. -/
def HoleC (lt : α → α → Bool) (d : α) (heap : List α) (pos : Nat) (newitem : α) : Prop :=
  ∀ c, c < heap.length → (c = 2 * pos + 1 ∨ c = 2 * pos + 2) →
    lt (heap.getD c d) newitem = false

theorem siftdown_isHeap (lt : α → α → Bool) (d : α) (hl : LawfulLt lt)
    (newitem : α) (heap : List α) (pos : Nat) :
    pos < heap.length → HoleA lt d heap pos → HoleB lt d heap pos →
    HoleC lt d heap pos newitem →
    IsHeap lt d (siftdown lt d newitem 0 heap pos) := by
  induction heap, pos using siftdown.induct lt d newitem 0 with
  | case1 heap pos h hlt ih =>
    intro hpos hA hB hC
    rw [siftdown, dif_pos h, if_pos hlt]
    have hpp : (pos - 1) / 2 < pos := by
      have := Nat.div_le_self (pos - 1) 2; omega
    apply ih
    · simp; omega
    · -- HoleA for the new hole (pos-1)/2
      intro i hi hi0 hip hipp
      simp only [List.length_set] at hi
      have hine : i ≠ pos := by
        intro hc; exact hipp (by omega)
      rw [getD_set_ne _ _ _ _ _ (by omega)]
      by_cases hpar : (i - 1) / 2 = pos
      · rw [hpar, getD_set_self _ _ _ _ hpos]
        exact hB (by omega) i hi (by omega)
      · rw [getD_set_ne _ _ _ _ _ (by omega)]
        exact hA i hi hi0 hine hpar
    · -- HoleB for the new hole
      intro hp0 c hc hcc
      simp only [List.length_set] at hc
      have hedge : lt (heap.getD ((pos - 1) / 2) d)
          (heap.getD (((pos - 1) / 2 - 1) / 2) d) = false :=
        hA _ (by omega) hp0 (by omega) (by omega)
      by_cases hcpos : c = pos
      · subst hcpos
        rw [getD_set_self _ _ _ _ hpos, getD_set_ne _ _ _ _ _ (by omega)]
        exact hedge
      · rw [getD_set_ne _ _ _ _ _ (by omega), getD_set_ne _ _ _ _ _ (by omega)]
        have hcp := hA c hc (by omega) hcpos (by omega)
        have hpc : (c - 1) / 2 = (pos - 1) / 2 := by omega
        rw [hpc] at hcp
        exact hl.le_trans _ _ _ hedge hcp
    · -- HoleC for the new hole
      intro c hc hcc
      simp only [List.length_set] at hc
      by_cases hcpos : c = pos
      · subst hcpos
        rw [getD_set_self _ _ _ _ hpos]
        exact hl.asymm _ _ hlt
      · rw [getD_set_ne _ _ _ _ _ (by omega)]
        have hcp := hA c hc (by omega) hcpos (by omega)
        have hpc : (c - 1) / 2 = (pos - 1) / 2 := by omega
        rw [hpc] at hcp
        exact hl.le_lt _ _ _ hcp hlt
  | case2 heap pos h hlt =>
    intro hpos hA hB hC
    rw [siftdown, dif_pos h, if_neg hlt]
    rw [Bool.not_eq_true] at hlt
    intro i hi hi0
    simp only [List.length_set] at hi
    by_cases hip : i = pos
    · subst hip
      rw [getD_set_self _ _ _ _ hpos, getD_set_ne _ _ _ _ _ (by omega)]
      exact hlt
    · rw [getD_set_ne _ _ _ _ _ (by omega)]
      by_cases hpar : (i - 1) / 2 = pos
      · rw [hpar, getD_set_self _ _ _ _ hpos]
        exact hC i hi (by omega)
      · rw [getD_set_ne _ _ _ _ _ (by omega)]
        exact hA i hi hi0 hip hpar
  | case3 heap pos h =>
    intro hpos hA hB hC
    rw [siftdown, dif_neg h]
    have hpos0 : pos = 0 := by omega
    subst hpos0
    intro i hi hi0
    simp only [List.length_set] at hi
    rw [getD_set_ne _ _ _ _ _ (by omega)]
    by_cases hpar : (i - 1) / 2 = 0
    · rw [hpar, getD_set_self _ _ _ _ hpos]
      exact hC i hi (by omega)
    · rw [getD_set_ne _ _ _ _ _ (by omega)]
      exact hA i hi hi0 (by omega) hpar

theorem siftupChild_mem (lt : α → α → Bool) (d : α) (endpos : Nat)
    (heap : List α) (pos : Nat) :
    siftupChild lt d endpos heap pos = 2 * pos + 1 ∨
    siftupChild lt d endpos heap pos = 2 * pos + 2 := by
  unfold siftupChild; split <;> simp

/-- The child chosen by `_siftup` is not greater than the sibling. -/
theorem siftupChild_sibling (lt : α → α → Bool) (d : α) (hl : LawfulLt lt)
    (endpos : Nat) (heap : List α) (pos : Nat) (i : Nat)
    (hi0 : 0 < i) (hi : i < endpos) (hpar : (i - 1) / 2 = pos)
    (hne : i ≠ siftupChild lt d endpos heap pos) :
    lt (heap.getD i d) (heap.getD (siftupChild lt d endpos heap pos) d) = false := by
  by_cases hcond : 2 * pos + 2 < endpos ∧
      lt (heap.getD (2 * pos + 1) d) (heap.getD (2 * pos + 2) d) = false
  · rw [siftupChild, if_pos hcond] at hne ⊢
    have : i = 2 * pos + 1 := by omega
    subst this
    exact hcond.2
  · rw [siftupChild, if_neg hcond] at hne ⊢
    have hieq : i = 2 * pos + 2 := by omega
    subst hieq
    have h2 : 2 * pos + 2 < endpos := hi
    have hltlr : lt (heap.getD (2 * pos + 1) d) (heap.getD (2 * pos + 2) d) = true := by
      cases hbool : lt (heap.getD (2 * pos + 1) d) (heap.getD (2 * pos + 2) d) with
      | false => exact absurd ⟨h2, hbool⟩ hcond
      | true => rfl
    exact hl.asymm _ _ hltlr

theorem siftup_isHeap (lt : α → α → Bool) (d : α) (hl : LawfulLt lt)
    (endpos : Nat) (newitem : α) (heap : List α) (pos : Nat) :
    heap.length = endpos → pos < endpos → HoleA lt d heap pos → HoleB lt d heap pos →
    IsHeap lt d (siftup lt d endpos 0 newitem heap pos) := by
  induction heap, pos using siftup.induct lt d endpos 0 newitem with
  | case1 heap pos h ih =>
    intro hlen hpos hA hB
    rw [siftup, dif_pos h]
    have hc2mem := siftupChild_mem lt d endpos heap pos
    have hc2lt := siftupChild_lt lt d endpos heap pos h
    have hc2gt := siftupChild_gt lt d endpos heap pos
    apply ih
    · simpa using hlen
    · exact hc2lt
    · -- HoleA for the new hole at the chosen child
      intro i hi hi0 hic2 hipc2
      simp only [List.length_set] at hi
      by_cases hip : i = pos
      · subst hip
        rw [getD_set_self _ _ _ _ (by omega), getD_set_ne _ _ _ _ _ (by omega)]
        exact hB hi0 _ (by omega) hc2mem
      · rw [getD_set_ne _ _ _ _ _ (by omega)]
        by_cases hpar : (i - 1) / 2 = pos
        · rw [hpar, getD_set_self _ _ _ _ (by omega)]
          exact siftupChild_sibling lt d hl endpos heap pos i hi0 (by omega) hpar hic2
        · rw [getD_set_ne _ _ _ _ _ (by omega)]
          exact hA i hi hi0 hip hpar
    · -- HoleB for the new hole at the chosen child
      intro _ c hc hcc
      simp only [List.length_set] at hc
      have hparc2 : (siftupChild lt d endpos heap pos - 1) / 2 = pos := by omega
      rw [getD_set_ne _ _ _ _ _ (by omega), hparc2, getD_set_self _ _ _ _ (by omega)]
      have hcp := hA c hc (by omega) (by omega) (by omega)
      have hpc : (c - 1) / 2 = siftupChild lt d endpos heap pos := by omega
      rw [hpc] at hcp
      exact hcp
  | case2 heap pos h =>
    intro hlen hpos hA hB
    rw [siftup, dif_neg h]
    apply siftdown_isHeap lt d hl newitem _ pos
    · simp; omega
    · intro i hi hi0 hip hpar
      simp only [List.length_set] at hi
      rw [getD_set_ne _ _ _ _ _ (by omega), getD_set_ne _ _ _ _ _ (by omega)]
      exact hA i hi hi0 hip hpar
    · intro hp0 c hc hcc
      simp only [List.length_set] at hc
      omega
    · intro c hc hcc
      simp only [List.length_set] at hc
      omega

theorem heappush_isHeap (lt : α → α → Bool) (d : α) (hl : LawfulLt lt)
    (heap : List α) (item : α) (hh : IsHeap lt d heap) :
    IsHeap lt d (heappush lt d heap item) := by
  unfold heappush
  apply siftdown_isHeap lt d hl item _ heap.length
  · simp
  · intro i hi hi0 hip hpar
    simp only [List.length_append, List.length_cons, List.length_nil] at hi
    rw [getD_append_lt _ _ _ _ (by omega), getD_append_lt _ _ _ _ (by omega)]
    exact hh i (by omega) hi0
  · intro hp0 c hc hcc
    simp only [List.length_append, List.length_cons, List.length_nil] at hc
    omega
  · intro c hc hcc
    simp only [List.length_append, List.length_cons, List.length_nil] at hc
    omega

theorem heappop_isHeap (lt : α → α → Bool) (d : α) (hl : LawfulLt lt)
    (heap : List α) (x : α) (rest : List α) (hh : IsHeap lt d heap)
    (h : heappop lt d heap = some (x, rest)) :
    IsHeap lt d rest := by
  rcases List.eq_nil_or_concat heap with rfl | ⟨ys, lastelt, rfl⟩
  · exact absurd h (by rw [show heappop lt d ([] : List α) = none from rfl]; simp)
  · rw [List.concat_eq_append] at h hh
    rw [heappop_concat] at h
    by_cases hemp : ys.length = 0
    · rw [if_pos hemp] at h
      simp only [Option.some.injEq, Prod.mk.injEq] at h
      obtain ⟨rfl, rfl⟩ := h
      intro i hi hi0; omega
    · rw [if_neg hemp] at h
      simp only [Option.some.injEq, Prod.mk.injEq] at h
      obtain ⟨hx, hrest⟩ := h
      rw [← hrest]
      apply siftup_isHeap lt d hl ys.length lastelt _ 0
      · simp
      · omega
      · intro i hi hi0 hip hpar
        simp only [List.length_set] at hi
        rw [getD_set_ne _ _ _ _ _ (by omega), getD_set_ne _ _ _ _ _ (by omega),
            (getD_append_lt ys [lastelt] i d (by omega)).symm,
            (getD_append_lt ys [lastelt] ((i - 1) / 2) d (by omega)).symm]
        exact hh i (by simp; omega) hi0
      · intro hp0; omega

/-- In a valid heap, the root is a minimal element. -/
theorem isHeap_root_min (lt : α → α → Bool) (d : α) (hl : LawfulLt lt)
    (heap : List α) (hh : IsHeap lt d heap) :
    ∀ i, i < heap.length → lt (heap.getD i d) (heap.getD 0 d) = false := by
  intro i
  induction i using Nat.strong_induction_on with
  | _ i ih =>
    intro hi
    rcases Nat.eq_zero_or_pos i with rfl | hpos
    · exact hl.irrefl _
    · have hpar := hh i hi hpos
      have hstep := ih ((i - 1) / 2)
        (by have := Nat.div_le_self (i - 1) 2; omega)
        (by have := Nat.div_le_self (i - 1) 2; omega)
      exact hl.le_trans _ _ _ hstep hpar

theorem isHeap_min_mem (lt : α → α → Bool) (d : α) (hl : LawfulLt lt)
    (heap : List α) (hh : IsHeap lt d heap) (x : α) (hx : x ∈ heap) :
    lt x (heap.getD 0 d) = false := by
  obtain ⟨i, hi, rfl⟩ := List.mem_iff_getElem.mp hx
  have := isHeap_root_min lt d hl heap hh i hi
  rwa [List.getD_eq_getElem _ _ hi] at this

/-- `heappop` returns the root of the heap. -/
theorem heappop_root (lt : α → α → Bool) (d : α) (heap : List α)
    (x : α) (rest : List α) (h : heappop lt d heap = some (x, rest)) :
    x = heap.getD 0 d := by
  rcases List.eq_nil_or_concat heap with rfl | ⟨ys, lastelt, rfl⟩
  · exact absurd h (by rw [show heappop lt d ([] : List α) = none from rfl]; simp)
  · rw [List.concat_eq_append] at h ⊢
    rw [heappop_concat] at h
    by_cases hemp : ys.length = 0
    · rw [if_pos hemp] at h
      simp only [Option.some.injEq, Prod.mk.injEq] at h
      obtain ⟨rfl, rfl⟩ := h
      obtain rfl : ys = [] := List.length_eq_zero.mp hemp
      rfl
    · rw [if_neg hemp] at h
      simp only [Option.some.injEq, Prod.mk.injEq] at h
      rw [← h.1, getD_append_lt _ _ _ _ (by omega)]

/-- On a valid heap, `heappop` returns a minimal element: everything
remaining is not smaller. -/
theorem heappop_min [DecidableEq α] (lt : α → α → Bool) (d : α) (hl : LawfulLt lt)
    (heap : List α) (x : α) (rest : List α) (hh : IsHeap lt d heap)
    (h : heappop lt d heap = some (x, rest)) :
    ∀ y ∈ rest, lt y x = false := by
  intro y hy
  have hmem : y ∈ heap := ((heappop_perm lt d heap x rest h).mem_iff).mp (by simp [hy])
  rw [heappop_root lt d heap x rest h]
  exact isHeap_min_mem lt d hl heap hh y hmem

end Heapq

/-! ## The two queue item types of `downloader.py` -/

/-- `JobQueueItem.__init__`: one (account, date) download unit.
`date` (a `datetime.date`) is modelled as a `Nat` (days are totally
ordered); `try_count` starts at 0 (see `JobQueueItem.mk0`). -/
structure JobQueueItem where
  ad_account_id : String
  date : Nat
  db_name : String
  try_count : Nat
deriving Repr, DecidableEq

/-- `JobQueueItem.__init__` sets `try_count = 0`. -/
def JobQueueItem.mk0 (ad_account_id : String) (date : Nat) (db_name : String) :
    JobQueueItem :=
  { ad_account_id := ad_account_id, date := date, db_name := db_name, try_count := 0 }

/-- `JobQueueItem.__lt__`: higher `try_count` first, then later `date`
first (python heapq sorts lowest to highest, so `a < b` means `a` is
popped before `b`). -/
def JobQueueItem.__lt__ (a b : JobQueueItem) : Bool :=
  if a.try_count > b.try_count then true
  else if a.try_count < b.try_count then false
  else if a.date > b.date then true
  else false

/-- Default `JobQueueItem` used for the (never hit) out-of-range reads
of the heap embedding. -/
def dJob : JobQueueItem := JobQueueItem.mk0 "" 0 ""

/-- `RetryQueueItem.__init__`: a job together with the absolute time
(`retry_at`, a `datetime.datetime` modelled as a `Nat` of seconds)
after which it may re-enter the job queue. -/
structure RetryQueueItem where
  retry_at : Nat
  job : JobQueueItem
deriving Repr, DecidableEq

/-- `RetryQueueItem.__lt__`: earliest `retry_at` first. -/
def RetryQueueItem.__lt__ (a b : RetryQueueItem) : Bool :=
  decide (a.retry_at < b.retry_at)

/-- Default `RetryQueueItem` for out-of-range reads of the embedding. -/
def dRetry : RetryQueueItem := { retry_at := 0, job := dJob }

theorem job_lt_iff (a b : JobQueueItem) :
    JobQueueItem.__lt__ a b = true ↔
      b.try_count < a.try_count ∨ (a.try_count = b.try_count ∧ b.date < a.date) := by
  unfold JobQueueItem.__lt__
  split_ifs with h1 h2 h3 <;> simp <;> omega

theorem job_lt_false_iff (a b : JobQueueItem) :
    JobQueueItem.__lt__ a b = false ↔
      ¬(b.try_count < a.try_count ∨ (a.try_count = b.try_count ∧ b.date < a.date)) := by
  rw [← job_lt_iff]
  cases h : JobQueueItem.__lt__ a b <;> simp

theorem jobLt_lawful : Heapq.LawfulLt JobQueueItem.__lt__ := by
  constructor
  · intro a; rw [job_lt_false_iff]; omega
  · intro a b h; rw [job_lt_iff] at h; rw [job_lt_false_iff]; omega
  · intro a b c h1 h2
    rw [job_lt_false_iff] at h1 h2 ⊢; omega
  · intro a b c h1 h2
    rw [job_lt_false_iff] at h1 ⊢; rw [job_lt_iff] at h2; omega

theorem retry_lt_iff (a b : RetryQueueItem) :
    RetryQueueItem.__lt__ a b = true ↔ a.retry_at < b.retry_at := by
  unfold RetryQueueItem.__lt__; simp

theorem retry_lt_false_iff (a b : RetryQueueItem) :
    RetryQueueItem.__lt__ a b = false ↔ ¬ a.retry_at < b.retry_at := by
  rw [← retry_lt_iff]
  cases h : RetryQueueItem.__lt__ a b <;> simp

theorem retryLt_lawful : Heapq.LawfulLt RetryQueueItem.__lt__ := by
  constructor
  · intro a; rw [retry_lt_false_iff]; omega
  · intro a b h; rw [retry_lt_iff] at h; rw [retry_lt_false_iff]; omega
  · intro a b c h1 h2
    rw [retry_lt_false_iff] at h1 h2 ⊢; omega
  · intro a b c h1 h2
    rw [retry_lt_false_iff] at h1 ⊢; rw [retry_lt_iff] at h2; omega

/-! ## Small-heap computation lemmas (for the ordering claim) -/

theorem heappush_nil (lt : JobQueueItem → JobQueueItem → Bool) (d x : JobQueueItem) :
    Heapq.heappush lt d [] x = [x] := by
  unfold Heapq.heappush
  rw [Heapq.siftdown]
  simp

theorem heappush_single (lt : JobQueueItem → JobQueueItem → Bool) (d a b : JobQueueItem) :
    Heapq.heappush lt d [a] b = if lt b a then [b, a] else [a, b] := by
  unfold Heapq.heappush
  rw [Heapq.siftdown]
  simp only [List.length_cons, List.length_nil]
  rw [dif_pos (by omega)]
  have hget : (([a] : List JobQueueItem) ++ [b]).getD ((1 - 1) / 2) d = a := rfl
  rw [hget]
  split
  · rw [Heapq.siftdown]
    simp
  · rfl

theorem heappop_pair (lt : JobQueueItem → JobQueueItem → Bool) (d x y : JobQueueItem) :
    Heapq.heappop lt d [x, y] = some (x, [y]) := by
  have hxy : ([x] : List JobQueueItem) ++ [y] = [x, y] := rfl
  rw [← hxy, Heapq.heappop_concat]
  rw [if_neg (by simp)]
  rw [Heapq.siftup]
  simp only [List.length_cons, List.length_nil]
  rw [dif_neg (by omega)]
  rw [Heapq.siftdown]
  simp

/-! ## The shared scheduler state (`ThreadArgs`) and `_process_job` -/

/-- How one execution attempt of a job ends, as observed by
`_process_job`'s `try`/`except` blocks: success, a
`FacebookRequestError` (with the rate-limit classification
`api_error_type() == 'OAuthException' and api_error_code() == 17`
already decided, and its message), or any other exception. -/
inductive AttemptOutcome where
  | success
  | requestError (is_rate_limit : Bool) (msg : String)
  | otherError (msg : String)
deriving Repr, DecidableEq

/-- The shared state held by `ThreadArgs`, together with the observable
effects on its three condition variables: each `*_notify` field counts
the `notify`/`notify_all` calls issued on the corresponding condition
variable, and `error_log` records the messages passed to
`_log(logging.error, ...)`. -/
structure ThreadArgs where
  job_list : List JobQueueItem
  retry_queue : List RetryQueueItem
  jobs_left : Int
  job_thread_done : Bool
  retry_thread_done : Bool
  error_occured : Bool
  error_log : List String
  job_list_notify : Nat
  retry_queue_notify : Nat
  state_changed_notify : Nat
deriving Repr, DecidableEq

/-- `ThreadArgs.__init__(job_list)`: empty retry queue, `jobs_left =
len(job_list)`, no done flags, no error. -/
def ThreadArgs.init (job_list : List JobQueueItem) : ThreadArgs :=
  { job_list := job_list
    retry_queue := []
    jobs_left := job_list.length
    job_thread_done := false
    retry_thread_done := false
    error_occured := false
    error_log := []
    job_list_notify := 0
    retry_queue_notify := 0
    state_changed_notify := 0 }

/-- Result of one `_process_job` call: the updated shared state, the
job as mutated by the worker (`try_count` incremented), and the number
of seconds the calling worker sleeps before returning to the pool
(`time.sleep(duration)` in the rate-limit branch; 0 everywhere else). -/
structure ProcessJobResult where
  args : ThreadArgs
  job : JobQueueItem
  sleep : Nat
deriving Repr, DecidableEq

/-- The `'download of {job} failed too many times'` message (the
placeholder text is abstract here). -/
def failedTooManyTimes (job : JobQueueItem) : String :=
  "download of act_" ++ job.ad_account_id ++ " failed too many times"

/-- `_process_job(args, job, api)`, with the download+persist side
effect abstracted by `outcome` and `datetime.datetime.now()` by `now`
(seconds). Mirrors the source: increment `try_count`; on success
decrement `jobs_left` under `state_changed_cv` and notify when it hits
0; on a `FacebookRequestError` with `try_count < 8` push a
`RetryQueueItem` due at `now + 60 * 2**(try_count - 1)` onto the retry
queue, notify `retry_queue_cv`, and sleep that same duration iff the
error was the rate limit; otherwise (other exception, or request error
at `try_count >= 8`) record the error, set `error_occured` and notify
`state_changed_cv`. -/
def _process_job (args : ThreadArgs) (job0 : JobQueueItem)
    (outcome : AttemptOutcome) (now : Nat) : ProcessJobResult :=
  let job : JobQueueItem := { job0 with try_count := job0.try_count + 1 }
  match outcome with
  | .success =>
    let left := args.jobs_left - 1
    { args := { args with
        jobs_left := left
        state_changed_notify :=
          if left = 0 then args.state_changed_notify + 1 else args.state_changed_notify }
      job := job
      sleep := 0 }
  | .requestError is_rate_limit msg =>
    if job.try_count < 8 then
      let duration : Nat := 60 * 2 ^ (job.try_count - 1)
      let retry_at : Nat := now + duration
      { args := { args with
          retry_queue := Heapq.heappush RetryQueueItem.__lt__ dRetry args.retry_queue
            { retry_at := retry_at, job := job }
          retry_queue_notify := args.retry_queue_notify + 1 }
        job := job
        sleep := if is_rate_limit then duration else 0 }
    else
      { args := { args with
          error_occured := true
          error_log := args.error_log ++ [msg, failedTooManyTimes job]
          state_changed_notify := args.state_changed_notify + 1 }
        job := job
        sleep := 0 }
  | .otherError msg =>
    { args := { args with
        error_occured := true
        error_log := args.error_log ++ [msg]
        state_changed_notify := args.state_changed_notify + 1 }
      job := job
      sleep := 0 }

/-! ## The retry dispatcher (`_retry_thread_func`) -/

/-- The inner drain loop of `_retry_thread_func`:
`while (not top is None) and (now >= top.retry_at): heappush(job_list,
heappop(retry_queue).job)`. Returns the final retry queue, the final
job list, and the drained entries in pop order. -/
def retryDrain (now : Nat) (retry_queue : List RetryQueueItem)
    (job_list : List JobQueueItem) :
    List RetryQueueItem × List JobQueueItem × List RetryQueueItem :=
  if _h : retry_queue ≠ [] ∧ now ≥ (retry_queue.getD 0 dRetry).retry_at then
    match hp : Heapq.heappop RetryQueueItem.__lt__ dRetry retry_queue with
    | none => (retry_queue, job_list, [])
    | some (item, rq) =>
      let res := retryDrain now rq (Heapq.heappush JobQueueItem.__lt__ dJob job_list item.job)
      (res.1, res.2.1, item :: res.2.2)
  else
    (retry_queue, job_list, [])
termination_by retry_queue.length
decreasing_by
  have := Heapq.heappop_length RetryQueueItem.__lt__ dRetry retry_queue item rq hp
  omega

/-- One iteration of the `while not args.retry_thread_done` body of
`_retry_thread_func`, up to the final `retry_queue_cv.wait(wait_timeout)`:
returns the updated state and the `wait_timeout` passed to the wait
(`none` means wait with no timeout). When the root of the retry queue
is due, the due entries are drained into the job list and
`job_list_cv` is notified. -/
def retry_thread_body (args : ThreadArgs) (now : Nat) : ThreadArgs × Option Nat :=
  if 0 < args.retry_queue.length then
    if now ≥ (args.retry_queue.getD 0 dRetry).retry_at then
      if 0 < (retryDrain now args.retry_queue args.job_list).1.length then
        ({ args with
            retry_queue := (retryDrain now args.retry_queue args.job_list).1
            job_list := (retryDrain now args.retry_queue args.job_list).2.1
            job_list_notify := args.job_list_notify + 1 },
         some (((retryDrain now args.retry_queue args.job_list).1.getD 0 dRetry).retry_at - now))
      else
        ({ args with
            retry_queue := (retryDrain now args.retry_queue args.job_list).1
            job_list := (retryDrain now args.retry_queue args.job_list).2.1
            job_list_notify := args.job_list_notify + 1 },
         none)
    else
      (args, some ((args.retry_queue.getD 0 dRetry).retry_at - now))
  else
    (args, none)

/-- One check of `_retry_thread_func`'s loop guard: `none` when the
dispatcher exits (`retry_thread_done` is set), else the executed body. -/
def _retry_thread_iter (args : ThreadArgs) (now : Nat) : Option (ThreadArgs × Option Nat) :=
  if args.retry_thread_done then none else some (retry_thread_body args now)

/-! ## The worker loop (`_job_thread_func`) -/

/-- What one iteration of `_job_thread_func`'s loop does. -/
inductive WorkerStep where
  | exit
  | popped (job : JobQueueItem) (rest : List JobQueueItem)
  | wait
deriving Repr, DecidableEq

/-- One iteration of `_job_thread_func`'s `while not
args.job_thread_done` loop: exit when the done flag is set; else pop
the top job when the job list is non-empty; else block in
`args.job_list_cv.wait()`. -/
def _job_thread_iter (args : ThreadArgs) : WorkerStep :=
  if args.job_thread_done then .exit
  else
    match Heapq.heappop JobQueueItem.__lt__ dJob args.job_list with
    | some (job, rest) => .popped job rest
    | none => .wait

/-- A thread blocked in `ConditionVariable.wait()` recorded how many
notifications had been issued when it started waiting; the wait can
return (the thread is woken) once a further notification arrives. -/
def wait_returns (seen current_notify : Nat) : Prop :=
  seen < current_notify

instance (seen current_notify : Nat) : Decidable (wait_returns seen current_notify) := by
  unfold wait_returns; infer_instance

/-! ## The controller (`_process_single_day_jobs_concurrently`) -/

/-- The controller's wait-loop guard:
`(not thread_args.error_occured) and (thread_args.jobs_left > 0)`. -/
def controller_keeps_waiting (args : ThreadArgs) : Bool :=
  !args.error_occured && decide (0 < args.jobs_left)

/-- The `finally` block of the controller once the wait loop exits: set
`job_thread_done` under `job_list_cv` and `notify_all` it, then set
`retry_thread_done` under `retry_queue_cv` and `notify` it. -/
def controller_shutdown (args : ThreadArgs) : ThreadArgs :=
  { args with
    job_thread_done := true
    job_list_notify := args.job_list_notify + 1
    retry_thread_done := true
    retry_queue_notify := args.retry_queue_notify + 1 }

/-- The last statement of `_process_single_day_jobs_concurrently` after
all threads are joined: `sys.exit(1)` when `error_occured` (modelled as
`Except.error 1`, the process exit status raised to the caller), plain
return otherwise. -/
def run_exit (args : ThreadArgs) : Except Nat Unit :=
  if args.error_occured then Except.error 1 else Except.ok ()

/-- The entry of `_process_single_day_jobs_concurrently(job_list,
n_threads)`: raise `ValueError` when `n_threads < 1`, before the job
list is heapified, before `ThreadArgs` is created and before any
thread is started; otherwise heapify the job list, create the shared
state and start 1 retry thread plus `n_threads` job threads. The two
numbers returned are the started (worker, retry-dispatcher) thread
counts. -/
def _process_single_day_jobs_concurrently_start
    (job_list : List JobQueueItem) (n_threads : Int) :
    Except String (ThreadArgs × Nat × Nat) :=
  if n_threads < 1 then
    Except.error "_process_single_day_jobs_concurrently should have n_threads > 0"
  else
    Except.ok (ThreadArgs.init (Heapq.heapify JobQueueItem.__lt__ dJob job_list),
      n_threads.toNat, 1)

/-! ## Sequential reference run for the failure-free scenario -/

/-- Sequential execution of the worker pool in a run where every
attempt succeeds: repeatedly pop the top job (as `_job_thread_func`
does) and run `_process_job` on it with outcome `success`. Returns the
final state and the executed jobs (with incremented `try_count`) in
execution order. -/
def run_all_success_loop (args : ThreadArgs) (processed : List JobQueueItem) :
    ThreadArgs × List JobQueueItem :=
  match hp : Heapq.heappop JobQueueItem.__lt__ dJob args.job_list with
  | none => (args, processed)
  | some (job, rest) =>
    let r := _process_job { args with job_list := rest } job .success 0
    run_all_success_loop r.args (processed ++ [r.job])
termination_by args.job_list.length
decreasing_by
  have := Heapq.heappop_length JobQueueItem.__lt__ dJob args.job_list job rest hp
  simp only [_process_job]
  omega

/-- A full failure-free run, seeded as
`_process_single_day_jobs_concurrently` seeds it (`heapq.heapify` on
the job list, `jobs_left = len(job_list)`). -/
def run_all_success (jobs : List JobQueueItem) : ThreadArgs × List JobQueueItem :=
  run_all_success_loop (ThreadArgs.init (Heapq.heapify JobQueueItem.__lt__ dJob jobs)) []

/-! ## The `rate_limiting` decorator -/

/-- A `facebook_business.api.FacebookRequestError`, abstracted to its
message. -/
structure FacebookRequestError where
  msg : String
deriving Repr, DecidableEq

/-- The `while True` loop of `rate_limiting`'s `func_wrapper`. The
wrapped call is modelled by `f`, mapping the call index (which always
equals `number_of_attempts`, incremented once per failed attempt) to
that call's outcome. Returns the final outcome together with the list
of sleep durations performed, in order. -/
def func_wrapper {β : Type} (f : Nat → Except FacebookRequestError β) :
    Nat → List Nat → Except FacebookRequestError β × List Nat
  | number_of_attempts, sleeps =>
    match f number_of_attempts with
    | .ok b => (.ok b, sleeps)
    | .error e =>
      if number_of_attempts < 7 then
        func_wrapper f (number_of_attempts + 1) (sleeps ++ [60 * 2 ^ number_of_attempts])
      else
        (.error e, sleeps)
termination_by n _ => 8 - n
decreasing_by omega

/-- `rate_limiting(func)`: run `func_wrapper` from
`number_of_attempts = 0`. -/
def rate_limiting {β : Type} (f : Nat → Except FacebookRequestError β) :
    Except FacebookRequestError β × List Nat :=
  func_wrapper f 0 []

/-- `_upsert_ad_performance` is `@rate_limiting` applied to the sqlite
upsert (executed inside a worker), whose effect is abstracted as
`dbEffect`. -/
def _upsert_ad_performance (dbEffect : Nat → Except FacebookRequestError Unit) :
    Except FacebookRequestError Unit × List Nat :=
  rate_limiting dbEffect

/-- `get_campaign_data` is `@rate_limiting` applied to the
account-structure campaign fetch, abstracted as `fetch`. -/
def get_campaign_data {β : Type} (fetch : Nat → Except FacebookRequestError β) :
    Except FacebookRequestError β × List Nat :=
  rate_limiting fetch

/-- `get_ad_set_data` is `@rate_limiting` applied to the ad-set fetch. -/
def get_ad_set_data {β : Type} (fetch : Nat → Except FacebookRequestError β) :
    Except FacebookRequestError β × List Nat :=
  rate_limiting fetch

/-- `get_ad_data` is `@rate_limiting` applied to the ad fetch. -/
def get_ad_data {β : Type} (fetch : Nat → Except FacebookRequestError β) :
    Except FacebookRequestError β × List Nat :=
  rate_limiting fetch

/-- `_get_ad_accounts` is `@rate_limiting` applied to the ad-account
discovery fetch. -/
def _get_ad_accounts {β : Type} (fetch : Nat → Except FacebookRequestError β) :
    Except FacebookRequestError β × List Nat :=
  rate_limiting fetch

/-! ## Unrolling lemmas for `rate_limiting` -/

/-- If every call before `k` fails and call `k` succeeds (`k ≤ 7`),
then from attempt counter `n` (with `n + j = k`) the wrapper returns
call `k`'s value after sleeping `60 * 2**m` for `m = n..k-1`. -/
theorem func_wrapper_ok_from {β : Type} (f : Nat → Except FacebookRequestError β)
    (k : Nat) (b : β) (hk : k ≤ 7)
    (hfail : ∀ i, i < k → (f i).isOk = false) (hok : f k = .ok b) :
    ∀ (j n : Nat) (sleeps : List Nat), n + j = k →
      func_wrapper f n sleeps
        = (.ok b, sleeps ++ (List.range' n j).map (fun m => 60 * 2 ^ m)) := by
  intro j
  induction j with
  | zero =>
    intro n sleeps hn
    obtain rfl : n = k := by omega
    rw [func_wrapper, hok]
    simp
  | succ j ih =>
    intro n sleeps hn
    have hnk : n < k := by omega
    have hn7 : n < 7 := by omega
    cases hfn : f n with
    | ok v =>
      have := hfail n hnk
      rw [hfn] at this
      simp [Except.isOk, Except.toBool] at this
    | error e =>
      have hstep : func_wrapper f n sleeps
          = func_wrapper f (n + 1) (sleeps ++ [60 * 2 ^ n]) := by
        rw [func_wrapper, hfn]
        simp [hn7]
      rw [hstep, ih (n + 1) _ (by omega), List.range'_succ]
      simp

/-- If all eight calls fail, the wrapper re-raises the error of call 7
(the 8th call) after the seven sleeps. -/
theorem func_wrapper_fail_from {β : Type} (f : Nat → Except FacebookRequestError β)
    (e : FacebookRequestError)
    (hfail : ∀ i, i < 7 → (f i).isOk = false) (herr : f 7 = .error e) :
    ∀ (j n : Nat) (sleeps : List Nat), n + j = 7 →
      func_wrapper f n sleeps
        = (.error e, sleeps ++ (List.range' n j).map (fun m => 60 * 2 ^ m)) := by
  intro j
  induction j with
  | zero =>
    intro n sleeps hn
    obtain rfl : n = 7 := by omega
    rw [func_wrapper, herr]
    simp
  | succ j ih =>
    intro n sleeps hn
    have hn7 : n < 7 := by omega
    cases hfn : f n with
    | ok v =>
      have := hfail n hn7
      rw [hfn] at this
      simp [Except.isOk, Except.toBool] at this
    | error e2 =>
      have hstep : func_wrapper f n sleeps
          = func_wrapper f (n + 1) (sleeps ++ [60 * 2 ^ n]) := by
        rw [func_wrapper, hfn]
        simp [hn7]
      rw [hstep, ih (n + 1) _ (by omega), List.range'_succ]
      simp

/-! ## Shared concrete sample data for the witnesses -/

/-- A sample wrapped call that fails its first three attempts and
succeeds on the fourth. -/
def sampleFetchOk : Nat → Except FacebookRequestError Nat :=
  fun n => if n < 3 then .error { msg := "limit" } else .ok 42

/-- A sample wrapped call that always fails. -/
def sampleFetchFail : Nat → Except FacebookRequestError Nat :=
  fun _ => .error { msg := "down" }

/-- A sample job that has failed twice already. -/
def sampleJobA : JobQueueItem :=
  { ad_account_id := "111", date := 19723, db_name := "dbA", try_count := 2 }

/-- A fresh sample job. -/
def sampleJobB : JobQueueItem := JobQueueItem.mk0 "222" 19720 "dbB"

/-- A fresh sample job with a later date than `sampleJobB`. -/
def sampleJobC : JobQueueItem := JobQueueItem.mk0 "333" 19725 "dbC"

/-- A sample scheduler state whose retry queue holds two entries due
at 500 and 900 (a valid binary heap). -/
def sampleRetryArgs : ThreadArgs :=
  { ThreadArgs.init [] with
    retry_queue := [{ retry_at := 500, job := sampleJobB },
                    { retry_at := 900, job := sampleJobC }] }

/-- A sample instant before both deadlines of `sampleRetryArgs`. -/
def now400 : Nat := 400

/-- A sample instant between the two deadlines of `sampleRetryArgs`. -/
def now600 : Nat := 600

/-! ## Claim theorems -/

/-- **C1.** The Job Queue comparator (`JobQueueItem.__lt__`, used by the
`heapq` operations on `job_list`) orders jobs so that for every pair of
jobs the one with the strictly higher `try_count` is popped first, and
when the `try_count`s are equal the one with the later `date` is popped
first, regardless of the order in which the two jobs were pushed. -/
theorem C1_job_queue_pops_higher_try_count_then_later_date
    (a b : JobQueueItem)
    (h : b.try_count < a.try_count ∨ (a.try_count = b.try_count ∧ b.date < a.date)) :
    Heapq.heappop JobQueueItem.__lt__ dJob
        (Heapq.heappush JobQueueItem.__lt__ dJob
          (Heapq.heappush JobQueueItem.__lt__ dJob [] a) b) = some (a, [b]) ∧
    Heapq.heappop JobQueueItem.__lt__ dJob
        (Heapq.heappush JobQueueItem.__lt__ dJob
          (Heapq.heappush JobQueueItem.__lt__ dJob [] b) a) = some (a, [b]) := by
  have hab : JobQueueItem.__lt__ a b = true := (job_lt_iff a b).mpr h
  have hba : JobQueueItem.__lt__ b a = false := (job_lt_false_iff b a).mpr (by omega)
  constructor
  · rw [heappush_nil, heappush_single, hba]
    simp only [Bool.false_eq_true, if_false]
    exact heappop_pair _ _ a b
  · rw [heappush_nil, heappush_single, hab]
    simp only [if_true]
    exact heappop_pair _ _ a b

/-- Witness for C1: a twice-failed job beats a fresh one, and on equal
`try_count` the later date wins, in both push orders. -/
theorem C1_job_queue_pops_higher_try_count_then_later_date_witness :
    ((sampleJobB.try_count < sampleJobA.try_count ∨
        (sampleJobA.try_count = sampleJobB.try_count ∧ sampleJobB.date < sampleJobA.date)) ∧
      Heapq.heappop JobQueueItem.__lt__ dJob
          (Heapq.heappush JobQueueItem.__lt__ dJob
            (Heapq.heappush JobQueueItem.__lt__ dJob [] sampleJobA) sampleJobB)
        = some (sampleJobA, [sampleJobB]) ∧
      Heapq.heappop JobQueueItem.__lt__ dJob
          (Heapq.heappush JobQueueItem.__lt__ dJob
            (Heapq.heappush JobQueueItem.__lt__ dJob [] sampleJobB) sampleJobA)
        = some (sampleJobA, [sampleJobB])) ∧
    ((sampleJobB.try_count < sampleJobC.try_count ∨
        (sampleJobC.try_count = sampleJobB.try_count ∧ sampleJobB.date < sampleJobC.date)) ∧
      Heapq.heappop JobQueueItem.__lt__ dJob
          (Heapq.heappush JobQueueItem.__lt__ dJob
            (Heapq.heappush JobQueueItem.__lt__ dJob [] sampleJobC) sampleJobB)
        = some (sampleJobC, [sampleJobB]) ∧
      Heapq.heappop JobQueueItem.__lt__ dJob
          (Heapq.heappush JobQueueItem.__lt__ dJob
            (Heapq.heappush JobQueueItem.__lt__ dJob [] sampleJobB) sampleJobC)
        = some (sampleJobC, [sampleJobB])) :=
  ⟨⟨by decide,
    (C1_job_queue_pops_higher_try_count_then_later_date sampleJobA sampleJobB (by decide)).1,
    (C1_job_queue_pops_higher_try_count_then_later_date sampleJobA sampleJobB (by decide)).2⟩,
   ⟨by decide,
    (C1_job_queue_pops_higher_try_count_then_later_date sampleJobC sampleJobB (by decide)).1,
    (C1_job_queue_pops_higher_try_count_then_later_date sampleJobC sampleJobB (by decide)).2⟩⟩

/-- **C2.** A job whose attempt fails with a `FacebookRequestError`
while its incremented `try_count` is still below the limit of 8 total
attempts is pushed onto the Retry Queue with
`retry_at = now + 60 * 2**(try_count - 1)` (and `retry_queue_cv` is
notified); it is neither dropped nor counted as resolved: `jobs_left`,
the job list and the error flag are untouched. -/
theorem C2_retryable_failure_schedules_exponential_backoff
    (args : ThreadArgs) (job0 : JobQueueItem) (is_rate_limit : Bool)
    (msg : String) (now : Nat) (h : job0.try_count + 1 < 8) :
    List.Perm (_process_job args job0 (.requestError is_rate_limit msg) now).args.retry_queue
      ({ retry_at := now + 60 * 2 ^ ((job0.try_count + 1) - 1),
         job := { job0 with try_count := job0.try_count + 1 } } :: args.retry_queue) ∧
    (_process_job args job0 (.requestError is_rate_limit msg) now).args.jobs_left
      = args.jobs_left ∧
    (_process_job args job0 (.requestError is_rate_limit msg) now).args.error_occured
      = args.error_occured ∧
    (_process_job args job0 (.requestError is_rate_limit msg) now).args.job_list
      = args.job_list ∧
    (_process_job args job0 (.requestError is_rate_limit msg) now).args.retry_queue_notify
      = args.retry_queue_notify + 1 := by
  have h8 : ({ job0 with try_count := job0.try_count + 1 } : JobQueueItem).try_count < 8 := by
    simp; omega
  simp only [_process_job, h8, if_true]
  refine ⟨Heapq.heappush_perm _ _ _ _, ?_, ?_, ?_, ?_⟩ <;> simp

/-- Witness for C2: a fresh job failing its first attempt at time 1000
is scheduled for 1060 (backoff 60), with nothing dropped. -/
theorem C2_retryable_failure_schedules_exponential_backoff_witness :
    sampleJobB.try_count + 1 < 8 ∧
    (List.Perm (_process_job (ThreadArgs.init [sampleJobB]) sampleJobB
        (.requestError true "rate limit") 1000).args.retry_queue
      ({ retry_at := 1000 + 60 * 2 ^ ((sampleJobB.try_count + 1) - 1),
         job := { sampleJobB with try_count := sampleJobB.try_count + 1 } }
        :: (ThreadArgs.init [sampleJobB]).retry_queue) ∧
    (_process_job (ThreadArgs.init [sampleJobB]) sampleJobB
        (.requestError true "rate limit") 1000).args.jobs_left
      = (ThreadArgs.init [sampleJobB]).jobs_left ∧
    (_process_job (ThreadArgs.init [sampleJobB]) sampleJobB
        (.requestError true "rate limit") 1000).args.error_occured
      = (ThreadArgs.init [sampleJobB]).error_occured ∧
    (_process_job (ThreadArgs.init [sampleJobB]) sampleJobB
        (.requestError true "rate limit") 1000).args.job_list
      = (ThreadArgs.init [sampleJobB]).job_list ∧
    (_process_job (ThreadArgs.init [sampleJobB]) sampleJobB
        (.requestError true "rate limit") 1000).args.retry_queue_notify
      = (ThreadArgs.init [sampleJobB]).retry_queue_notify + 1) :=
  ⟨by decide,
   C2_retryable_failure_schedules_exponential_backoff
     (ThreadArgs.init [sampleJobB]) sampleJobB true "rate limit" 1000 (by decide)⟩

/-- **C3.** A job failing with a non-retryable error, or failing
retryably on its 8th attempt (incremented `try_count` at the limit),
sets the fatal flag `error_occured`, records the error in the error
log, notifies the Controller's `state_changed_cv`, drops the job (both
queues and `jobs_left` untouched, the job re-enters nothing), makes
the Controller stop waiting, and the run exits as FAILED
(`sys.exit(1)`). -/
theorem C3_fatal_failure_drops_job_and_fails_run
    (args : ThreadArgs) (job0 : JobQueueItem) (now : Nat)
    (outcome : AttemptOutcome) (msg : String) (is_rate_limit : Bool)
    (h : outcome = .otherError msg ∨
      (outcome = .requestError is_rate_limit msg ∧ 8 ≤ job0.try_count + 1)) :
    (_process_job args job0 outcome now).args.error_occured = true ∧
    msg ∈ (_process_job args job0 outcome now).args.error_log ∧
    (_process_job args job0 outcome now).args.state_changed_notify
      = args.state_changed_notify + 1 ∧
    (_process_job args job0 outcome now).args.retry_queue = args.retry_queue ∧
    (_process_job args job0 outcome now).args.job_list = args.job_list ∧
    (_process_job args job0 outcome now).args.jobs_left = args.jobs_left ∧
    controller_keeps_waiting (_process_job args job0 outcome now).args = false ∧
    run_exit (_process_job args job0 outcome now).args = Except.error 1 := by
  rcases h with rfl | ⟨rfl, h8⟩
  · simp [_process_job, controller_keeps_waiting, run_exit]
  · have h8n : ¬ ({ job0 with try_count := job0.try_count + 1 } : JobQueueItem).try_count < 8 := by
      simp; omega
    simp [_process_job, h8n, controller_keeps_waiting, run_exit]

/-- Witness for C3: an 8th-attempt retryable failure is fatal. -/
theorem C3_fatal_failure_drops_job_and_fails_run_witness :
    (AttemptOutcome.requestError false "server error"
        = AttemptOutcome.otherError "server error" ∨
      (AttemptOutcome.requestError false "server error"
          = AttemptOutcome.requestError false "server error" ∧
        8 ≤ ({ sampleJobA with try_count := 7 } : JobQueueItem).try_count + 1)) ∧
    ((_process_job (ThreadArgs.init [sampleJobA]) { sampleJobA with try_count := 7 }
        (.requestError false "server error") 0).args.error_occured = true ∧
    "server error" ∈ (_process_job (ThreadArgs.init [sampleJobA])
        { sampleJobA with try_count := 7 }
        (.requestError false "server error") 0).args.error_log ∧
    (_process_job (ThreadArgs.init [sampleJobA]) { sampleJobA with try_count := 7 }
        (.requestError false "server error") 0).args.state_changed_notify
      = (ThreadArgs.init [sampleJobA]).state_changed_notify + 1 ∧
    (_process_job (ThreadArgs.init [sampleJobA]) { sampleJobA with try_count := 7 }
        (.requestError false "server error") 0).args.retry_queue
      = (ThreadArgs.init [sampleJobA]).retry_queue ∧
    (_process_job (ThreadArgs.init [sampleJobA]) { sampleJobA with try_count := 7 }
        (.requestError false "server error") 0).args.job_list
      = (ThreadArgs.init [sampleJobA]).job_list ∧
    (_process_job (ThreadArgs.init [sampleJobA]) { sampleJobA with try_count := 7 }
        (.requestError false "server error") 0).args.jobs_left
      = (ThreadArgs.init [sampleJobA]).jobs_left ∧
    controller_keeps_waiting (_process_job (ThreadArgs.init [sampleJobA])
        { sampleJobA with try_count := 7 }
        (.requestError false "server error") 0).args = false ∧
    run_exit (_process_job (ThreadArgs.init [sampleJobA]) { sampleJobA with try_count := 7 }
        (.requestError false "server error") 0).args = Except.error 1) :=
  ⟨Or.inr ⟨rfl, by decide⟩,
   C3_fatal_failure_drops_job_and_fails_run (ThreadArgs.init [sampleJobA])
     { sampleJobA with try_count := 7 } 0 (.requestError false "server error")
     "server error" false (Or.inr ⟨rfl, by decide⟩)⟩

/-- **C4.** After scheduling the retry, a worker that hit the remote
rate limit sleeps itself for exactly the backoff duration
(`due_at - now`); a worker whose retryable failure was not the rate
limit returns immediately (`sleep = 0`), as do workers on success or
fatal error. The sleep is performed only by the calling worker
(`time.sleep` inside this worker's `_process_job` call); the shared
state carries no pause, so the other workers keep running. -/
theorem C4_only_rate_limited_worker_sleeps_backoff
    (args : ThreadArgs) (job0 : JobQueueItem) (msg : String) (now : Nat)
    (h : job0.try_count + 1 < 8) :
    (_process_job args job0 (.requestError true msg) now).sleep
      = 60 * 2 ^ ((job0.try_count + 1) - 1) ∧
    (_process_job args job0 (.requestError true msg) now).sleep
      = (now + 60 * 2 ^ ((job0.try_count + 1) - 1)) - now ∧
    (_process_job args job0 (.requestError false msg) now).sleep = 0 ∧
    (_process_job args job0 .success now).sleep = 0 ∧
    (_process_job args job0 (.otherError msg) now).sleep = 0 := by
  have h8 : ({ job0 with try_count := job0.try_count + 1 } : JobQueueItem).try_count < 8 := by
    simp; omega
  simp only [_process_job, h8, if_true]
  refine ⟨?_, ?_, ?_, ?_, ?_⟩ <;> simp <;> omega

/-- **C9.** `_process_single_day_jobs_concurrently` raises a
`ValueError` for every `n_threads < 1`, before the job list is
heapified, before the shared state exists and before any worker or
dispatcher thread is started or any job attempted (the error result
carries no started threads); for every `n_threads >= 1` it proceeds to
start exactly `n_threads` workers plus one retry dispatcher on the
heapified job list. -/
theorem C9_worker_count_validated_before_any_thread_starts
    (job_list : List JobQueueItem) (n_threads : Int) :
    (n_threads < 1 →
      _process_single_day_jobs_concurrently_start job_list n_threads
        = Except.error "_process_single_day_jobs_concurrently should have n_threads > 0") ∧
    (1 ≤ n_threads →
      _process_single_day_jobs_concurrently_start job_list n_threads
        = Except.ok (ThreadArgs.init (Heapq.heapify JobQueueItem.__lt__ dJob job_list),
            n_threads.toNat, 1)) := by
  constructor
  · intro h
    rw [_process_single_day_jobs_concurrently_start, if_pos h]
  · intro h
    rw [_process_single_day_jobs_concurrently_start, if_neg (by omega)]

/-- Witness for C9: `n_threads = 0` is rejected, `n_threads = 3`
starts 3 workers and 1 dispatcher. -/
theorem C9_worker_count_validated_before_any_thread_starts_witness :
    ((0 : Int) < 1 ∧
      _process_single_day_jobs_concurrently_start [sampleJobB] 0
        = Except.error "_process_single_day_jobs_concurrently should have n_threads > 0") ∧
    ((1 : Int) ≤ 3 ∧
      _process_single_day_jobs_concurrently_start [sampleJobB] 3
        = Except.ok (ThreadArgs.init (Heapq.heapify JobQueueItem.__lt__ dJob [sampleJobB]),
            (3 : Int).toNat, 1)) :=
  ⟨⟨by decide,
    (C9_worker_count_validated_before_any_thread_starts [sampleJobB] 0).1 (by decide)⟩,
   ⟨by decide,
    (C9_worker_count_validated_before_any_thread_starts [sampleJobB] 3).2 (by decide)⟩⟩

/-- **C10.** Every function wrapped by the `rate_limiting` decorator
(the account-structure fetches `get_campaign_data`, `get_ad_set_data`,
`get_ad_data`, `_get_ad_accounts`, and the per-job persist step
`_upsert_ad_performance` executed inside a worker) has its own
in-place retry loop, independent of the scheduler's retry queue: after
the (n+1)-st consecutive `FacebookRequestError` with `n < 7` it sleeps
`60 * 2**n` seconds (n = 0..6) and calls again in place, so the same
call is attempted up to 8 times; only the 8th consecutive failure
re-raises that error to the caller; a success returns the wrapped
call's result unchanged. -/
theorem C10_rate_limiting_retries_in_place
    (f : Nat → Except FacebookRequestError Nat) (k : Nat) (b : Nat)
    (e : FacebookRequestError) :
    (k ≤ 7 → (∀ i, i < k → (f i).isOk = false) → f k = .ok b →
      rate_limiting f = (.ok b, (List.range k).map (fun n => 60 * 2 ^ n))) ∧
    ((∀ i, i < 7 → (f i).isOk = false) → f 7 = .error e →
      rate_limiting f = (.error e, (List.range 7).map (fun n => 60 * 2 ^ n))) ∧
    (∀ g : Nat → Except FacebookRequestError Unit,
      _upsert_ad_performance g = rate_limiting g) ∧
    get_campaign_data f = rate_limiting f ∧
    get_ad_set_data f = rate_limiting f ∧
    get_ad_data f = rate_limiting f ∧
    _get_ad_accounts f = rate_limiting f := by
  refine ⟨?_, ?_, fun g => rfl, rfl, rfl, rfl, rfl⟩
  · intro hk hfail hok
    rw [rate_limiting, func_wrapper_ok_from f k b hk hfail hok k 0 [] (by omega)]
    rw [List.range_eq_range']
    simp
  · intro hfail herr
    rw [rate_limiting, func_wrapper_fail_from f e hfail herr 7 0 [] (by omega)]
    rw [List.range_eq_range']
    simp

/-- Witness for C10: three failures then success gives sleeps
`[60, 120, 240]` and the wrapped value; eight failures re-raise the
8th error after seven sleeps. -/
theorem C10_rate_limiting_retries_in_place_witness :
    (3 ≤ 7 ∧ (∀ i, i < 3 → (sampleFetchOk i).isOk = false) ∧ sampleFetchOk 3 = .ok 42 ∧
      rate_limiting sampleFetchOk = (.ok 42, (List.range 3).map (fun n => 60 * 2 ^ n))) ∧
    ((∀ i, i < 7 → (sampleFetchFail i).isOk = false) ∧
      sampleFetchFail 7 = .error { msg := "down" } ∧
      rate_limiting sampleFetchFail
        = (.error { msg := "down" }, (List.range 7).map (fun n => 60 * 2 ^ n))) :=
  ⟨⟨by decide, by decide, rfl,
    (C10_rate_limiting_retries_in_place sampleFetchOk 3 42 { msg := "down" }).1
      (by decide) (by decide) rfl⟩,
   ⟨by decide, rfl,
    (C10_rate_limiting_retries_in_place sampleFetchFail 7 42 { msg := "down" }).2.1
      (by decide) rfl⟩⟩

/-! ### The failure-free run (C5) -/

theorem run_all_success_loop_none (args : ThreadArgs) (processed : List JobQueueItem)
    (hp : Heapq.heappop JobQueueItem.__lt__ dJob args.job_list = none) :
    run_all_success_loop args processed = (args, processed) := by
  rw [run_all_success_loop.eq_def]
  split
  · rfl
  · next job rest hp2 => rw [hp] at hp2; cases hp2

theorem run_all_success_loop_some (args : ThreadArgs) (processed : List JobQueueItem)
    (job : JobQueueItem) (rest : List JobQueueItem)
    (hp : Heapq.heappop JobQueueItem.__lt__ dJob args.job_list = some (job, rest)) :
    run_all_success_loop args processed =
      run_all_success_loop
        (_process_job { args with job_list := rest } job .success 0).args
        (processed ++ [(_process_job { args with job_list := rest } job .success 0).job]) := by
  rw [run_all_success_loop.eq_def]
  split
  · next hp2 => rw [hp] at hp2; cases hp2
  · next job2 rest2 hp2 =>
    rw [hp] at hp2
    injection hp2 with h
    injection h with h1 h2
    subst h1; subst h2
    rfl

/-- The fields `_process_job` touches on success: `jobs_left`
decremented once, everything else (queues, flags, log) untouched, the
job handed back with `try_count` incremented. -/
theorem process_job_success_fields (args : ThreadArgs) (job0 : JobQueueItem) (now : Nat) :
    (_process_job args job0 .success now).args.job_list = args.job_list ∧
    (_process_job args job0 .success now).args.jobs_left = args.jobs_left - 1 ∧
    (_process_job args job0 .success now).args.retry_queue = args.retry_queue ∧
    (_process_job args job0 .success now).args.error_occured = args.error_occured ∧
    (_process_job args job0 .success now).job
      = { job0 with try_count := job0.try_count + 1 } := by
  simp [_process_job]

/-- Invariant of the failure-free worker loop: it empties the job
list, decrements `jobs_left` exactly once per popped job (and touches
nothing else), and executes exactly the jobs of the job list, each
once with its `try_count` incremented once. -/
theorem run_all_success_loop_spec :
    ∀ (n : Nat) (args : ThreadArgs) (processed : List JobQueueItem),
    args.job_list.length = n →
    (run_all_success_loop args processed).1.job_list = [] ∧
    (run_all_success_loop args processed).1.jobs_left
      = args.jobs_left - args.job_list.length ∧
    (run_all_success_loop args processed).1.retry_queue = args.retry_queue ∧
    (run_all_success_loop args processed).1.error_occured = args.error_occured ∧
    List.Perm (run_all_success_loop args processed).2
      (processed ++ args.job_list.map (fun j => { j with try_count := j.try_count + 1 })) := by
  intro n
  induction n using Nat.strong_induction_on with
  | _ n ih =>
    intro args processed hn
    cases hp : Heapq.heappop JobQueueItem.__lt__ dJob args.job_list with
    | none =>
      have hnil : args.job_list = [] := (Heapq.heappop_none_iff _ _ _).mp hp
      rw [run_all_success_loop_none args processed hp]
      simp [hnil]
    | some pair =>
      obtain ⟨job, rest⟩ := pair
      rw [run_all_success_loop_some args processed job rest hp]
      have hperm := Heapq.heappop_perm JobQueueItem.__lt__ dJob args.job_list job rest hp
      have hlen := Heapq.heappop_length JobQueueItem.__lt__ dJob args.job_list job rest hp
      obtain ⟨hf1, hf2, hf3, hf4, hf5⟩ :=
        process_job_success_fields { args with job_list := rest } job 0
      obtain ⟨ih1, ih2, ih3, ih4, ih5⟩ :=
        ih rest.length (by omega)
          (_process_job { args with job_list := rest } job .success 0).args
          (processed ++ [(_process_job { args with job_list := rest } job .success 0).job])
          (by rw [hf1])
      refine ⟨ih1, ?_, ?_, ?_, ?_⟩
      · rw [ih2, hf2, hf1]
        simp
        omega
      · rw [ih3, hf3]
      · rw [ih4, hf4]
      · refine ih5.trans ?_
        rw [hf1, hf5, List.append_assoc]
        apply List.Perm.append_left
        simpa using hperm.map (fun j => { j with try_count := j.try_count + 1 })

/-- **C5.** In a run in which every execution attempt succeeds, each
seeded job is executed exactly once (the executed multiset is exactly
the seeded multiset, each with `try_count` incremented from 0 to 1
immediately before its single attempt), the `jobs_left` counter is
decremented exactly once per success (and by nothing else), and the
run completes with `jobs_left = 0`, an empty job list, an empty retry
queue and no error. -/
theorem C5_failure_free_run_executes_each_job_exactly_once
    (jobs : List JobQueueItem) (h0 : ∀ j ∈ jobs, j.try_count = 0) :
    (run_all_success jobs).1.job_list = [] ∧
    (run_all_success jobs).1.jobs_left = 0 ∧
    (run_all_success jobs).1.error_occured = false ∧
    (run_all_success jobs).1.retry_queue = [] ∧
    (run_all_success jobs).2.length = jobs.length ∧
    (∀ j ∈ (run_all_success jobs).2, j.try_count = 1) ∧
    List.Perm (run_all_success jobs).2
      (jobs.map (fun j => { j with try_count := j.try_count + 1 })) := by
  have hperm0 := Heapq.heapify_perm JobQueueItem.__lt__ dJob jobs
  obtain ⟨h1, h2, h3, h4, h5⟩ :=
    run_all_success_loop_spec
      (Heapq.heapify JobQueueItem.__lt__ dJob jobs).length
      (ThreadArgs.init (Heapq.heapify JobQueueItem.__lt__ dJob jobs)) [] rfl
  unfold run_all_success
  have hmap : List.Perm (run_all_success_loop
      (ThreadArgs.init (Heapq.heapify JobQueueItem.__lt__ dJob jobs)) []).2
      (jobs.map (fun j => { j with try_count := j.try_count + 1 })) := by
    refine h5.trans ?_
    simpa using hperm0.map (fun j => { j with try_count := j.try_count + 1 })
  refine ⟨h1, ?_, ?_, ?_, ?_, ?_, hmap⟩
  · rw [h2]
    simp [ThreadArgs.init]
  · rw [h4]
    rfl
  · rw [h3]
    rfl
  · rw [hmap.length_eq]
    simp
  · intro j hj
    have hj2 := hmap.mem_iff.mp hj
    obtain ⟨j0, hj0, rfl⟩ := List.mem_map.mp hj2
    simp [h0 j0 hj0]

/-- Witness for C5: two fresh jobs, both executed once, run ends with
`jobs_left = 0`. -/
theorem C5_failure_free_run_executes_each_job_exactly_once_witness :
    (∀ j ∈ [sampleJobB, sampleJobC], j.try_count = 0) ∧
    ((run_all_success [sampleJobB, sampleJobC]).1.job_list = [] ∧
    (run_all_success [sampleJobB, sampleJobC]).1.jobs_left = 0 ∧
    (run_all_success [sampleJobB, sampleJobC]).1.error_occured = false ∧
    (run_all_success [sampleJobB, sampleJobC]).1.retry_queue = [] ∧
    (run_all_success [sampleJobB, sampleJobC]).2.length = [sampleJobB, sampleJobC].length ∧
    (∀ j ∈ (run_all_success [sampleJobB, sampleJobC]).2, j.try_count = 1) ∧
    List.Perm (run_all_success [sampleJobB, sampleJobC]).2
      ([sampleJobB, sampleJobC].map (fun j => { j with try_count := j.try_count + 1 }))) :=
  ⟨by decide,
   C5_failure_free_run_executes_each_job_exactly_once [sampleJobB, sampleJobC] (by decide)⟩

/-! ### The retry dispatcher loop (C7) -/

theorem retryDrain_not_due (now : Nat) (rq : List RetryQueueItem)
    (jl : List JobQueueItem)
    (h : ¬(rq ≠ [] ∧ now ≥ (rq.getD 0 dRetry).retry_at)) :
    retryDrain now rq jl = (rq, jl, []) := by
  rw [retryDrain.eq_def, dif_neg h]

theorem retryDrain_due (now : Nat) (rq : List RetryQueueItem) (jl : List JobQueueItem)
    (item : RetryQueueItem) (rq2 : List RetryQueueItem)
    (hcond : rq ≠ [] ∧ now ≥ (rq.getD 0 dRetry).retry_at)
    (hp : Heapq.heappop RetryQueueItem.__lt__ dRetry rq = some (item, rq2)) :
    retryDrain now rq jl =
      ((retryDrain now rq2 (Heapq.heappush JobQueueItem.__lt__ dJob jl item.job)).1,
       (retryDrain now rq2 (Heapq.heappush JobQueueItem.__lt__ dJob jl item.job)).2.1,
       item :: (retryDrain now rq2 (Heapq.heappush JobQueueItem.__lt__ dJob jl item.job)).2.2) := by
  rw [retryDrain.eq_def, dif_pos hcond]
  split
  · next hp2 => rw [hp] at hp2; cases hp2
  · next item2 rq3 hp2 =>
    rw [hp] at hp2
    injection hp2 with h
    injection h with h1 h2
    subst h1; subst h2
    rfl

/-- Specification of the drain loop on a valid heap: it removes
exactly the due entries (`retry_at ≤ now`), earliest first, pushes
exactly their jobs onto the job list, keeps the rest a valid heap, and
every remaining entry is strictly in the future. -/
theorem retryDrain_spec (now : Nat) :
    ∀ (n : Nat) (rq : List RetryQueueItem) (jl : List JobQueueItem),
    rq.length = n → Heapq.IsHeap RetryQueueItem.__lt__ dRetry rq →
    List.Perm rq ((retryDrain now rq jl).2.2 ++ (retryDrain now rq jl).1) ∧
    (∀ e ∈ (retryDrain now rq jl).2.2, e.retry_at ≤ now) ∧
    (∀ e ∈ (retryDrain now rq jl).1, now < e.retry_at) ∧
    Heapq.IsHeap RetryQueueItem.__lt__ dRetry (retryDrain now rq jl).1 ∧
    List.Perm (retryDrain now rq jl).2.1
      (((retryDrain now rq jl).2.2).map (fun e => e.job) ++ jl) ∧
    List.Sorted (fun a b : RetryQueueItem => a.retry_at ≤ b.retry_at)
      (retryDrain now rq jl).2.2 := by
  intro n
  induction n using Nat.strong_induction_on with
  | _ n ih =>
    intro rq jl hn hheap
    by_cases hcond : rq ≠ [] ∧ now ≥ (rq.getD 0 dRetry).retry_at
    · cases hp : Heapq.heappop RetryQueueItem.__lt__ dRetry rq with
      | none => exact absurd ((Heapq.heappop_none_iff _ _ _).mp hp) hcond.1
      | some pair =>
        obtain ⟨item, rq2⟩ := pair
        rw [retryDrain_due now rq jl item rq2 hcond hp]
        have hperm := Heapq.heappop_perm RetryQueueItem.__lt__ dRetry rq item rq2 hp
        have hlen := Heapq.heappop_length RetryQueueItem.__lt__ dRetry rq item rq2 hp
        have hheap2 := Heapq.heappop_isHeap RetryQueueItem.__lt__ dRetry retryLt_lawful
          rq item rq2 hheap hp
        have hroot := Heapq.heappop_root RetryQueueItem.__lt__ dRetry rq item rq2 hp
        have hdue : item.retry_at ≤ now := by rw [hroot]; exact hcond.2
        have hmin : ∀ y ∈ rq2, RetryQueueItem.__lt__ y item = false :=
          Heapq.heappop_min RetryQueueItem.__lt__ dRetry retryLt_lawful rq item rq2 hheap hp
        have hminle : ∀ y ∈ rq2, item.retry_at ≤ y.retry_at := by
          intro y hy
          have := (retry_lt_false_iff y item).mp (hmin y hy)
          omega
        obtain ⟨ih1, ih2, ih3, ih4, ih5, ih6⟩ :=
          ih rq2.length (by omega) rq2
            (Heapq.heappush JobQueueItem.__lt__ dJob jl item.job) rfl hheap2
        have hmemrq2 : ∀ e ∈ (retryDrain now rq2
            (Heapq.heappush JobQueueItem.__lt__ dJob jl item.job)).2.2, e ∈ rq2 := by
          intro e he
          exact ih1.symm.mem_iff.mp (by simp [he])
        refine ⟨?_, ?_, ih3, ih4, ?_, ?_⟩
        · refine hperm.symm.trans ?_
          exact ih1.cons item
        · intro e he
          rcases List.mem_cons.mp he with rfl | he2
          · exact hdue
          · exact ih2 e he2
        · refine ih5.trans ?_
          refine (List.Perm.append_left _
            (Heapq.heappush_perm JobQueueItem.__lt__ dJob jl item.job)).trans ?_
          simpa using List.perm_middle.symm
        · rw [List.sorted_cons]
          refine ⟨?_, ih6⟩
          intro b hb
          exact hminle b (hmemrq2 b hb)
    · rw [retryDrain_not_due now rq jl hcond]
      rw [not_and_or] at hcond
      refine ⟨by simp, by simp, ?_, hheap, by simp, by simp⟩
      intro e he
      rcases hcond with hnil | hfut
      · rw [not_not] at hnil
        subst hnil
        simp at he
      · have := Heapq.isHeap_min_mem RetryQueueItem.__lt__ dRetry retryLt_lawful
          rq hheap e he
        have := (retry_lt_false_iff e (rq.getD 0 dRetry)).mp this
        omega

/-- **C7.** One iteration of the Retry Dispatcher loop
(`_retry_thread_func`), on a valid retry heap: (i) if the Retry Queue
is empty it waits with no timeout (`wait(None)`) and changes nothing;
(ii) if the earliest `retry_at` is in the future it changes nothing and
waits for exactly that earliest deadline minus `now` (the root is the
earliest entry) — never a fixed tick; (iii) if the earliest `retry_at`
has passed it moves exactly the entries whose `retry_at` has passed
into the Job Queue, earliest first, notifies `job_list_cv`, and then
waits with no timeout if the queue emptied, else for exactly the new
earliest deadline minus `now`. -/
theorem C7_retry_dispatcher_moves_due_entries_and_waits_exact_deadline
    (args : ThreadArgs) (now : Nat)
    (hheap : Heapq.IsHeap RetryQueueItem.__lt__ dRetry args.retry_queue) :
    (args.retry_queue = [] → retry_thread_body args now = (args, none)) ∧
    (args.retry_queue ≠ [] → now < (args.retry_queue.getD 0 dRetry).retry_at →
      retry_thread_body args now
        = (args, some ((args.retry_queue.getD 0 dRetry).retry_at - now)) ∧
      ∀ e ∈ args.retry_queue, (args.retry_queue.getD 0 dRetry).retry_at ≤ e.retry_at) ∧
    (args.retry_queue ≠ [] → (args.retry_queue.getD 0 dRetry).retry_at ≤ now →
      (∀ e ∈ (retry_thread_body args now).1.retry_queue, now < e.retry_at) ∧
      (∀ e ∈ (retryDrain now args.retry_queue args.job_list).2.2, e.retry_at ≤ now) ∧
      List.Perm args.retry_queue
        ((retryDrain now args.retry_queue args.job_list).2.2
          ++ (retry_thread_body args now).1.retry_queue) ∧
      List.Sorted (fun a b : RetryQueueItem => a.retry_at ≤ b.retry_at)
        (retryDrain now args.retry_queue args.job_list).2.2 ∧
      List.Perm (retry_thread_body args now).1.job_list
        (((retryDrain now args.retry_queue args.job_list).2.2).map (fun e => e.job)
          ++ args.job_list) ∧
      (retry_thread_body args now).1.job_list_notify = args.job_list_notify + 1 ∧
      ((retry_thread_body args now).1.retry_queue = [] →
        (retry_thread_body args now).2 = none) ∧
      ((retry_thread_body args now).1.retry_queue ≠ [] →
        (retry_thread_body args now).2
          = some ((((retry_thread_body args now).1.retry_queue).getD 0 dRetry).retry_at - now) ∧
        ∀ e ∈ (retry_thread_body args now).1.retry_queue,
          (((retry_thread_body args now).1.retry_queue).getD 0 dRetry).retry_at
            ≤ e.retry_at)) := by
  refine ⟨?_, ?_, ?_⟩
  · intro h
    unfold retry_thread_body
    rw [if_neg (by simp [h])]
  · intro h0 hf
    constructor
    · unfold retry_thread_body
      rw [if_pos (List.length_pos.mpr h0), if_neg (by omega)]
    · intro e he
      have hm := Heapq.isHeap_min_mem RetryQueueItem.__lt__ dRetry retryLt_lawful
        args.retry_queue hheap e he
      have := (retry_lt_false_iff e (args.retry_queue.getD 0 dRetry)).mp hm
      omega
  · intro h0 hdue
    obtain ⟨d1, d2, d3, d4, d5, d6⟩ :=
      retryDrain_spec now args.retry_queue.length args.retry_queue args.job_list rfl hheap
    have hminrem : ∀ e ∈ (retryDrain now args.retry_queue args.job_list).1,
        (((retryDrain now args.retry_queue args.job_list).1).getD 0 dRetry).retry_at
          ≤ e.retry_at := by
      intro e he
      have hm := Heapq.isHeap_min_mem RetryQueueItem.__lt__ dRetry retryLt_lawful
        (retryDrain now args.retry_queue args.job_list).1 d4 e he
      have := (retry_lt_false_iff e
        ((retryDrain now args.retry_queue args.job_list).1.getD 0 dRetry)).mp hm
      omega
    by_cases hrem : 0 < (retryDrain now args.retry_queue args.job_list).1.length
    · have hbody : retry_thread_body args now =
          ({ args with
              retry_queue := (retryDrain now args.retry_queue args.job_list).1
              job_list := (retryDrain now args.retry_queue args.job_list).2.1
              job_list_notify := args.job_list_notify + 1 },
           some (((retryDrain now args.retry_queue args.job_list).1.getD 0 dRetry).retry_at
             - now)) := by
        unfold retry_thread_body
        rw [if_pos (List.length_pos.mpr h0), if_pos (by omega), if_pos hrem]
      rw [hbody]
      refine ⟨d3, d2, d1, d6, d5, rfl, ?_, ?_⟩
      · intro hc
        have hc2 : (retryDrain now args.retry_queue args.job_list).1 = [] := hc
        rw [hc2] at hrem
        simp at hrem
      · intro _
        exact ⟨rfl, hminrem⟩
    · have hbody : retry_thread_body args now =
          ({ args with
              retry_queue := (retryDrain now args.retry_queue args.job_list).1
              job_list := (retryDrain now args.retry_queue args.job_list).2.1
              job_list_notify := args.job_list_notify + 1 },
           none) := by
        unfold retry_thread_body
        rw [if_pos (List.length_pos.mpr h0), if_pos (by omega), if_neg hrem]
      rw [hbody]
      refine ⟨d3, d2, d1, d6, d5, rfl, fun _ => rfl, ?_⟩
      intro hc
      exact absurd (List.length_pos.mpr hc) hrem

/-- Witness for C7: on the two-entry heap due at 500 and 900, at time
400 nothing moves and the wait is exactly 100; at time 600 exactly the
500-entry moves and the wait is exactly 300; the empty queue waits
with no timeout. -/
theorem C7_retry_dispatcher_moves_due_entries_and_waits_exact_deadline_witness :
    (sampleRetryArgs.retry_queue ≠ [] ∧
      now400 < (sampleRetryArgs.retry_queue.getD 0 dRetry).retry_at ∧
      retry_thread_body sampleRetryArgs now400
        = (sampleRetryArgs,
           some ((sampleRetryArgs.retry_queue.getD 0 dRetry).retry_at - now400)) ∧
      (∀ e ∈ sampleRetryArgs.retry_queue,
        (sampleRetryArgs.retry_queue.getD 0 dRetry).retry_at ≤ e.retry_at)) ∧
    (sampleRetryArgs.retry_queue ≠ [] ∧
      (sampleRetryArgs.retry_queue.getD 0 dRetry).retry_at ≤ now600 ∧
      (∀ e ∈ (retry_thread_body sampleRetryArgs now600).1.retry_queue,
        now600 < e.retry_at) ∧
      (∀ e ∈ (retryDrain now600 sampleRetryArgs.retry_queue sampleRetryArgs.job_list).2.2,
        e.retry_at ≤ now600) ∧
      List.Perm sampleRetryArgs.retry_queue
        ((retryDrain now600 sampleRetryArgs.retry_queue sampleRetryArgs.job_list).2.2
          ++ (retry_thread_body sampleRetryArgs now600).1.retry_queue) ∧
      List.Sorted (fun a b : RetryQueueItem => a.retry_at ≤ b.retry_at)
        (retryDrain now600 sampleRetryArgs.retry_queue sampleRetryArgs.job_list).2.2 ∧
      List.Perm (retry_thread_body sampleRetryArgs now600).1.job_list
        (((retryDrain now600 sampleRetryArgs.retry_queue sampleRetryArgs.job_list).2.2).map
            (fun e => e.job) ++ sampleRetryArgs.job_list) ∧
      (retry_thread_body sampleRetryArgs now600).1.job_list_notify
        = sampleRetryArgs.job_list_notify + 1 ∧
      ((retry_thread_body sampleRetryArgs now600).1.retry_queue ≠ [] →
        (retry_thread_body sampleRetryArgs now600).2
          = some ((((retry_thread_body sampleRetryArgs now600).1.retry_queue).getD 0
              dRetry).retry_at - now600) ∧
        ∀ e ∈ (retry_thread_body sampleRetryArgs now600).1.retry_queue,
          (((retry_thread_body sampleRetryArgs now600).1.retry_queue).getD 0
              dRetry).retry_at ≤ e.retry_at)) ∧
    ((ThreadArgs.init []).retry_queue = [] ∧
      retry_thread_body (ThreadArgs.init []) now400 = (ThreadArgs.init [], none)) :=
  ⟨⟨by decide, by decide,
    (C7_retry_dispatcher_moves_due_entries_and_waits_exact_deadline sampleRetryArgs now400
      (by decide)).2.1 (by decide) (by decide)⟩,
   ⟨by decide, by decide,
    ((C7_retry_dispatcher_moves_due_entries_and_waits_exact_deadline sampleRetryArgs now600
      (by decide)).2.2 (by decide) (by decide)).1,
    ((C7_retry_dispatcher_moves_due_entries_and_waits_exact_deadline sampleRetryArgs now600
      (by decide)).2.2 (by decide) (by decide)).2.1,
    ((C7_retry_dispatcher_moves_due_entries_and_waits_exact_deadline sampleRetryArgs now600
      (by decide)).2.2 (by decide) (by decide)).2.2.1,
    ((C7_retry_dispatcher_moves_due_entries_and_waits_exact_deadline sampleRetryArgs now600
      (by decide)).2.2 (by decide) (by decide)).2.2.2.1,
    ((C7_retry_dispatcher_moves_due_entries_and_waits_exact_deadline sampleRetryArgs now600
      (by decide)).2.2 (by decide) (by decide)).2.2.2.2.1,
    ((C7_retry_dispatcher_moves_due_entries_and_waits_exact_deadline sampleRetryArgs now600
      (by decide)).2.2 (by decide) (by decide)).2.2.2.2.2.1,
    ((C7_retry_dispatcher_moves_due_entries_and_waits_exact_deadline sampleRetryArgs now600
      (by decide)).2.2 (by decide) (by decide)).2.2.2.2.2.2.2⟩,
   ⟨by decide,
    (C7_retry_dispatcher_moves_due_entries_and_waits_exact_deadline (ThreadArgs.init [])
      now400 (by decide)).1 (by decide)⟩⟩

/-- Counterexample for C6. The claim says the run entry point
propagates the recorded fatal error (the first fatal cause) to the
caller as the error result. In the code the caller-visible result of a
FAILED run is `sys.exit(1)` — a bare exit status: two runs whose first
fatal causes differ produce the identical error result `error 1`,
which therefore carries no recorded cause. -/
theorem C6_counterexample_exit_carries_no_cause :
    run_exit (_process_job (ThreadArgs.init [sampleJobB]) sampleJobB
        (.otherError "cause A") 0).args = Except.error 1 ∧
    run_exit (_process_job (ThreadArgs.init [sampleJobB]) sampleJobB
        (.otherError "cause B") 0).args = Except.error 1 ∧
    (_process_job (ThreadArgs.init [sampleJobB]) sampleJobB
        (.otherError "cause A") 0).args.error_log.head?
      ≠ (_process_job (ThreadArgs.init [sampleJobB]) sampleJobB
        (.otherError "cause B") 0).args.error_log.head? ∧
    run_exit (_process_job (ThreadArgs.init [sampleJobB]) sampleJobB
        (.otherError "cause A") 0).args
      = run_exit (_process_job (ThreadArgs.init [sampleJobB]) sampleJobB
        (.otherError "cause B") 0).args := by
  refine ⟨rfl, rfl, ?_, rfl⟩
  decide

/-- **C6 (amended).** When a run terminates as FAILED
(`error_occured`), the blocking entry point signals failure to the
caller as a bare error result — `sys.exit(1)`, an exit status carrying
no cause, the recorded fatal causes remaining only in the error log —
after abandoning all remaining unresolved jobs without further
attempts: the Controller stops waiting, the shutdown leaves both
queues untouched, every worker's next loop check exits without
popping, and the dispatcher's next loop check exits. -/
theorem C6_amended_failed_run_exits_status_1_abandoning_jobs
    (args : ThreadArgs) (now : Nat) (h : args.error_occured = true) :
    controller_keeps_waiting args = false ∧
    run_exit args = Except.error 1 ∧
    (controller_shutdown args).job_list = args.job_list ∧
    (controller_shutdown args).retry_queue = args.retry_queue ∧
    (controller_shutdown args).error_log = args.error_log ∧
    _job_thread_iter (controller_shutdown args) = .exit ∧
    _retry_thread_iter (controller_shutdown args) now = none := by
  refine ⟨?_, ?_, rfl, rfl, rfl, rfl, rfl⟩
  · simp [controller_keeps_waiting, h]
  · simp [run_exit, h]

/-- Witness for C6 (amended): a concrete fatal state exits with
status 1 and abandons the remaining queued job. -/
theorem C6_amended_failed_run_exits_status_1_abandoning_jobs_witness :
    (_process_job (ThreadArgs.init [sampleJobB, sampleJobC]) sampleJobB
        (.otherError "boom") 0).args.error_occured = true ∧
    (controller_keeps_waiting (_process_job (ThreadArgs.init [sampleJobB, sampleJobC])
        sampleJobB (.otherError "boom") 0).args = false ∧
    run_exit (_process_job (ThreadArgs.init [sampleJobB, sampleJobC]) sampleJobB
        (.otherError "boom") 0).args = Except.error 1 ∧
    (controller_shutdown (_process_job (ThreadArgs.init [sampleJobB, sampleJobC]) sampleJobB
        (.otherError "boom") 0).args).job_list
      = (_process_job (ThreadArgs.init [sampleJobB, sampleJobC]) sampleJobB
        (.otherError "boom") 0).args.job_list ∧
    (controller_shutdown (_process_job (ThreadArgs.init [sampleJobB, sampleJobC]) sampleJobB
        (.otherError "boom") 0).args).retry_queue
      = (_process_job (ThreadArgs.init [sampleJobB, sampleJobC]) sampleJobB
        (.otherError "boom") 0).args.retry_queue ∧
    (controller_shutdown (_process_job (ThreadArgs.init [sampleJobB, sampleJobC]) sampleJobB
        (.otherError "boom") 0).args).error_log
      = (_process_job (ThreadArgs.init [sampleJobB, sampleJobC]) sampleJobB
        (.otherError "boom") 0).args.error_log ∧
    _job_thread_iter (controller_shutdown (_process_job
        (ThreadArgs.init [sampleJobB, sampleJobC]) sampleJobB
        (.otherError "boom") 0).args) = .exit ∧
    _retry_thread_iter (controller_shutdown (_process_job
        (ThreadArgs.init [sampleJobB, sampleJobC]) sampleJobB
        (.otherError "boom") 0).args) 77 = none) :=
  ⟨by decide,
   C6_amended_failed_run_exits_status_1_abandoning_jobs
     (_process_job (ThreadArgs.init [sampleJobB, sampleJobC]) sampleJobB
       (.otherError "boom") 0).args 77 (by decide)⟩

/-- **C8.** For every run, the Controller's wait loop ends exactly at
the terminal condition (`jobs_left ≤ 0`, i.e. `remaining == 0` on the
success path, or the fatal flag); the shutdown block then sets both
stopping flags and wakes both distinct wait points exactly once
(`job_list_cv.notify_all` for the workers' Job Queue wait,
`retry_queue_cv.notify` for the dispatcher's timed wait): every thread
blocked in a wait that had seen at most the pre-shutdown notification
count is woken, and every worker's and the dispatcher's next loop
check terminates its loop — no thread is left blocked forever, the
joins complete and `run()` returns. -/
theorem C8_shutdown_wakes_both_wait_points_and_every_thread_exits
    (args : ThreadArgs) (now : Nat) :
    (controller_keeps_waiting args = false ↔
      (args.error_occured = true ∨ args.jobs_left ≤ 0)) ∧
    (controller_shutdown args).job_thread_done = true ∧
    (controller_shutdown args).retry_thread_done = true ∧
    (controller_shutdown args).job_list_notify = args.job_list_notify + 1 ∧
    (controller_shutdown args).retry_queue_notify = args.retry_queue_notify + 1 ∧
    _job_thread_iter (controller_shutdown args) = .exit ∧
    _retry_thread_iter (controller_shutdown args) now = none ∧
    (∀ seen, seen ≤ args.job_list_notify →
      wait_returns seen (controller_shutdown args).job_list_notify) ∧
    (∀ seen, seen ≤ args.retry_queue_notify →
      wait_returns seen (controller_shutdown args).retry_queue_notify) := by
  refine ⟨?_, rfl, rfl, rfl, rfl, rfl, rfl, ?_, ?_⟩
  · unfold controller_keeps_waiting
    cases h : args.error_occured <;> simp <;> omega
  · intro seen hs
    unfold wait_returns controller_shutdown
    simp
    omega
  · intro seen hs
    unfold wait_returns controller_shutdown
    simp
    omega

/-- Witness for C8: on a concrete mid-run state both wait points are
woken and both thread kinds exit. -/
theorem C8_shutdown_wakes_both_wait_points_and_every_thread_exits_witness :
    ((controller_keeps_waiting sampleRetryArgs = false ↔
      (sampleRetryArgs.error_occured = true ∨ sampleRetryArgs.jobs_left ≤ 0)) ∧
    (controller_shutdown sampleRetryArgs).job_thread_done = true ∧
    (controller_shutdown sampleRetryArgs).retry_thread_done = true ∧
    (controller_shutdown sampleRetryArgs).job_list_notify
      = sampleRetryArgs.job_list_notify + 1 ∧
    (controller_shutdown sampleRetryArgs).retry_queue_notify
      = sampleRetryArgs.retry_queue_notify + 1 ∧
    _job_thread_iter (controller_shutdown sampleRetryArgs) = .exit ∧
    _retry_thread_iter (controller_shutdown sampleRetryArgs) now600 = none ∧
    (∀ seen, seen ≤ sampleRetryArgs.job_list_notify →
      wait_returns seen (controller_shutdown sampleRetryArgs).job_list_notify) ∧
    (∀ seen, seen ≤ sampleRetryArgs.retry_queue_notify →
      wait_returns seen (controller_shutdown sampleRetryArgs).retry_queue_notify)) ∧
    wait_returns 0 (controller_shutdown sampleRetryArgs).job_list_notify ∧
    wait_returns 0 (controller_shutdown sampleRetryArgs).retry_queue_notify :=
  ⟨C8_shutdown_wakes_both_wait_points_and_every_thread_exits sampleRetryArgs now600,
   (C8_shutdown_wakes_both_wait_points_and_every_thread_exits sampleRetryArgs
     now600).2.2.2.2.2.2.2.1 0 (by decide),
   (C8_shutdown_wakes_both_wait_points_and_every_thread_exits sampleRetryArgs
     now600).2.2.2.2.2.2.2.2 0 (by decide)⟩

/-- Witness for C4: a third-attempt rate-limit failure sleeps 240
seconds; a non-rate-limit failure does not sleep. -/
theorem C4_only_rate_limited_worker_sleeps_backoff_witness :
    sampleJobA.try_count + 1 < 8 ∧
    ((_process_job (ThreadArgs.init [sampleJobA]) sampleJobA
        (.requestError true "rate limit") 50).sleep
      = 60 * 2 ^ ((sampleJobA.try_count + 1) - 1) ∧
    (_process_job (ThreadArgs.init [sampleJobA]) sampleJobA
        (.requestError true "rate limit") 50).sleep
      = (50 + 60 * 2 ^ ((sampleJobA.try_count + 1) - 1)) - 50 ∧
    (_process_job (ThreadArgs.init [sampleJobA]) sampleJobA
        (.requestError false "rate limit") 50).sleep = 0 ∧
    (_process_job (ThreadArgs.init [sampleJobA]) sampleJobA .success 50).sleep = 0 ∧
    (_process_job (ThreadArgs.init [sampleJobA]) sampleJobA
        (.otherError "rate limit") 50).sleep = 0) :=
  ⟨by decide,
   C4_only_rate_limited_worker_sleeps_backoff (ThreadArgs.init [sampleJobA])
     sampleJobA "rate limit" 50 (by decide)⟩

end FacebookDownloader
